import Mathlib

/-!
Shallow embedding of the rules engine of a turn-based card game.

The engine is a pure reducer over a single `GameState`.  Source layout:
`src/lib/cards.ts` (card catalog and numeric rule tables), the engine
helper module (zone manager, atonement, elimination, win checks, deck
exhaustion scoring), the view helpers (hand limit, territory values),
and one handler module per card effect (Hunt, Tithe, King's Command,
draw).  TypeScript in-place mutation is rendered as explicit state
passing; every handler has the shape
`GameState -> payload -> Option String × GameState`, where a `some`
first component is the rejection string.  The source `shuffle` uses
`Math.random`; all deck operations below are parameterised by a shuffle
function `sh`, and theorems that depend on shuffling assume only that
`sh` permutes its input.
-/

namespace NoMoreTarot

/-- The six card types (src/lib/cards.ts `CardType`). -/
inductive CardType where
  | stag
  | hunt
  | healing
  | magi
  | tithe
  | kingscommand
deriving DecidableEq, Repr

/-- Card identity.  The source encodes a card id as the string
`"<type>-<value>"` and recovers the two components on every use with
`parseCardType` / `parseCardValue`; the embedding represents the id
directly by those components (same identity, no parse failures). -/
structure CardId where
  ctype : CardType
  value : Nat
deriving DecidableEq, Repr

/-- `parseCardType` (src/lib/cards.ts): the type component of a card id. -/
def parseCardType (c : CardId) : CardType := c.ctype

/-- `parseCardValue` (src/lib/cards.ts): the numeric component of a card id. -/
def parseCardValue (c : CardId) : Nat := c.value

/-- The fixed 51-card catalog `ALL_CARDS` (src/lib/cards.ts):
Stag 1-12, Hunt 1-12, Healing 1-12, Magi 1-6, Tithe 1-6,
King's Command 1-3. -/
def allCards : List CardId :=
  ((List.range 12).map (fun i => ⟨.stag, i + 1⟩))
    ++ ((List.range 12).map (fun i => ⟨.hunt, i + 1⟩))
    ++ ((List.range 12).map (fun i => ⟨.healing, i + 1⟩))
    ++ ((List.range 6).map (fun i => ⟨.magi, i + 1⟩))
    ++ ((List.range 6).map (fun i => ⟨.tithe, i + 1⟩))
    ++ ((List.range 3).map (fun i => ⟨.kingscommand, i + 1⟩))

/-- `stagDiscardCost` (src/lib/cards.ts lines 69-74), verbatim branch
structure: note the final branch returns 6. -/
def stagDiscardCost (stagValue : Nat) : Nat :=
  if stagValue ≤ 3 then 1
  else if stagValue ≤ 6 then 2
  else if stagValue ≤ 9 then 4
  else 6

/-- `stagAtonementCost` (src/lib/cards.ts lines 77-81). -/
def stagAtonementCost (stagValue : Nat) : Nat :=
  if stagValue ≤ 4 then 1
  else if stagValue ≤ 8 then 2
  else 3

/-- The inline Stag cost used by the view projector availability check
(`computeAvailableActions`, view module:
`val <= 3 ? 1 : val <= 6 ? 2 : val <= 9 ? 4 : 8`). -/
def viewPlayStagCost (val : Nat) : Nat :=
  if val ≤ 3 then 1
  else if val ≤ 6 then 2
  else if val ≤ 9 then 4
  else 8

/-- The Stag discard-cost table printed by the in-game rules screen
(src/components/RulesDrawer.tsx `StagRules`): Stag 1-3 discards 1,
4-6 discards 2, 7-9 discards 4, 10-12 discards 8. -/
def rulesDrawerStagDiscardCost (val : Nat) : Nat :=
  if val ≤ 3 then 1
  else if val ≤ 6 then 2
  else if val ≤ 9 then 4
  else 8

/-- Display name of a card type (src/lib/cards.ts `cardDisplayName`). -/
def typeName : CardType → String
  | .stag => "Stag"
  | .hunt => "Hunt"
  | .healing => "Healing"
  | .magi => "Magi"
  | .tithe => "Tithe"
  | .kingscommand => "Kings Command"

/-- `cardDisplayName` (src/lib/cards.ts): Magi, Tithe and King's Command
omit the instance number. -/
def cardDisplayName (c : CardId) : String :=
  match c.ctype with
  | .magi => typeName c.ctype
  | .tithe => typeName c.ctype
  | .kingscommand => typeName c.ctype
  | _ => typeName c.ctype ++ " " ++ toString c.value

/-- `PlayerState` (data model).  `hand`, `territory`,
`territoryMagiAsHealing` are card lists; contribution tokens move from
`contributionsRemaining` to `contributionsMade`. -/
structure PlayerState where
  id : String
  name : String
  seatIndex : Nat
  hand : List CardId
  territory : List CardId
  territoryMagiAsHealing : List CardId
  contributionsRemaining : Nat
  contributionsMade : Nat
  ante : Nat
  eliminated : Bool
deriving DecidableEq, Repr

/-- Outer turn FSM states. -/
inductive TurnPhase where
  | refreshKingdom
  | kingdomAction
  | territoryAction
  | endOfTurn
deriving DecidableEq, Repr

/-- `PendingHuntResponse` variant payload (types module, fields as used
by the Hunt handlers). -/
structure PendingHuntResponse where
  huntPlayerSeat : Nat
  huntCardId : CardId
  huntTotalValue : Nat
  respondingSeat : Nat
  remainingResponderSeats : List Nat
  discardsPerPlayer : Nat
  drawsForHunter : Nat
  averters : Nat
  nonAverterSeats : List Nat
deriving DecidableEq, Repr

/-- `PendingHuntDiscard` variant payload. -/
structure PendingHuntDiscard where
  huntPlayerSeat : Nat
  huntCardId : CardId
  currentDiscardSeat : Nat
  remainingDiscardSeats : List Nat
  discardsPerPlayer : Nat
  drawsForHunter : Nat
  averters : Nat
deriving DecidableEq, Repr

/-- `PendingTitheDiscard` variant payload. -/
structure PendingTitheDiscard where
  tithePlayerSeat : Nat
  titheCardId : CardId
  currentDiscardSeat : Nat
  remainingDiscardSeats : List Nat
  contributionsSoFar : Nat
deriving DecidableEq, Repr

/-- `PendingTitheContribute` variant payload. -/
structure PendingTitheContribute where
  playerSeat : Nat
  titheCardId : CardId
  contributionsSoFar : Nat
deriving DecidableEq, Repr

/-- `PendingKingCommandResponse` variant payload. -/
structure PendingKingCommandResponse where
  commandPlayerSeat : Nat
  respondingSeat : Nat
  remainingResponderSeats : List Nat
  discardedStags : List CardId
deriving DecidableEq, Repr

/-- `PendingKingCommandCollect` variant payload. -/
structure PendingKingCommandCollect where
  commandPlayerSeat : Nat
  discardedStags : List CardId
deriving DecidableEq, Repr

/-- The pending-action tagged union (the variants exercised by the
handlers embedded here; the drafting and Magi variants of the source
union are carried by handlers outside the embedded modules). -/
inductive PendingAction where
  | huntResponse (p : PendingHuntResponse)
  | huntDiscard (p : PendingHuntDiscard)
  | titheDiscard (p : PendingTitheDiscard)
  | titheContribute (p : PendingTitheContribute)
  | kingCommandResponse (p : PendingKingCommandResponse)
  | kingCommandCollect (p : PendingKingCommandCollect)
  | discardToHandLimit (playerSeat : Nat) (mustDiscard : Nat)
deriving DecidableEq, Repr

/-- `GameState` (data model).  The log keeps only the messages (the
source timestamps entries with the wall clock, which carries no game
information). -/
structure GameState where
  players : List PlayerState
  playerOrder : List Nat
  currentPlayerIndex : Nat
  turnPhase : TurnPhase
  pendingAction : Option PendingAction
  deck : List CardId
  discard : List CardId
  burned : List CardId
  kingdom : List CardId
  log : List String
  winner : Option String
  winReason : Option String
deriving DecidableEq, Repr

/-- Append a log entry (engine module `log`). -/
def log (s : GameState) (m : String) : GameState :=
  { s with log := s.log ++ [m] }

/-- `getHandLimit` (view module): base 5, +1 per territory Magi not
flagged as healing. -/
def getHandLimit (p : PlayerState) : Nat :=
  5 + (p.territory.filter
    (fun c => parseCardType c == .magi && !(p.territoryMagiAsHealing.contains c))).length

/-- `getTerritoryHealingValue` (view module): +1 per territory Healing
card, +3 per Magi-as-Healing. -/
def getTerritoryHealingValue (p : PlayerState) : Nat :=
  (p.territory.filter (fun c => parseCardType c == .healing)).length
    + 3 * p.territoryMagiAsHealing.length

/-- `getStagPoints` (view module): sum of territory Stag values. -/
def getStagPoints (p : PlayerState) : Nat :=
  p.territory.foldl
    (fun total c => if parseCardType c == .stag then total + parseCardValue c else total) 0

/-- `countTerritoryType` (view module). -/
def countTerritoryType (p : PlayerState) (t : CardType) : Nat :=
  (p.territory.filter (fun c => parseCardType c == t)).length

/-- Take the top of the deck.  The source deck is a JS array whose draw
point is `pop()`, i.e. the array end; the embedding keeps the same
orientation, so the top is the last list element. -/
def popLast (l : List CardId) : Option (CardId × List CardId) :=
  match l.getLast? with
  | none => none
  | some c => some (c, l.dropLast)

/-- `ensureDeck` (engine module): when the deck is empty, shuffle the
discard pile into the deck and burn one card; result tells whether the
deck now has cards. -/
def ensureDeck (sh : List CardId → List CardId) (s : GameState) : Bool × GameState :=
  if 0 < s.deck.length then (true, s)
  else if s.discard.length = 0 then (false, s)
  else
    let s1 := { s with deck := sh s.discard, discard := [],
                       log := s.log ++ ["Discard pile shuffled into deck."] }
    let s2 :=
      match popLast s1.deck with
      | some (c, rest) =>
          { s1 with deck := rest, burned := s1.burned ++ [c],
                    log := s1.log ++ ["Burned 1 card after reshuffle."] }
      | none => s1
    (!s2.deck.isEmpty, s2)

/-- `drawCard` (engine module): draw one card from the deck top, or
`none` when both deck and discard pile are exhausted. -/
def drawCard (sh : List CardId → List CardId) (s : GameState) :
    Option CardId × GameState :=
  match ensureDeck sh s with
  | (false, s1) => (none, s1)
  | (true, s1) =>
    match popLast s1.deck with
    | some (c, rest) => (some c, { s1 with deck := rest })
    | none => (none, s1)

/-- `burnCard` (engine module). -/
def burnCard (sh : List CardId → List CardId) (s : GameState) : Bool × GameState :=
  match ensureDeck sh s with
  | (false, s1) => (false, s1)
  | (true, s1) =>
    match popLast s1.deck with
    | some (c, rest) => (true, { s1 with deck := rest, burned := s1.burned ++ [c] })
    | none => (false, s1)

/-- `dealToKingdom` (engine module). -/
def dealToKingdom (sh : List CardId → List CardId) (s : GameState) : Bool × GameState :=
  match ensureDeck sh s with
  | (false, s1) => (false, s1)
  | (true, s1) =>
    match popLast s1.deck with
    | some (c, rest) => (true, { s1 with deck := rest, kingdom := s1.kingdom ++ [c] })
    | none => (false, s1)

/-- Replace the first player with the given seat index (the source
mutates the object returned by a first-match lookup). -/
def modifyFirstPlayer (ps : List PlayerState) (seat : Nat)
    (f : PlayerState → PlayerState) : List PlayerState :=
  match ps with
  | [] => []
  | p :: rest =>
    if p.seatIndex = seat then f p :: rest
    else p :: modifyFirstPlayer rest seat f

/-- Apply an update to the player at a seat. -/
def modifyPlayer (s : GameState) (seat : Nat) (f : PlayerState → PlayerState) :
    GameState :=
  { s with players := modifyFirstPlayer s.players seat f }

/-- Placeholder player.  `getPlayerBySeat` in the source throws when the
seat is absent; the embedding returns this default instead, and it is
only ever reached at seats that do not exist in the state. -/
def defaultPlayer : PlayerState :=
  ⟨"", "", 0, [], [], [], 0, 0, 0, false⟩

/-- `getPlayerBySeat` (engine module), first match on seat index. -/
def getPlayerBySeat (s : GameState) (seat : Nat) : PlayerState :=
  (s.players.find? (fun p => p.seatIndex == seat)).getD defaultPlayer

/-- `getOpponentSeatsInOrder` (engine module): non-eliminated opponent
seats clockwise after the given seat. -/
def getOpponentSeatsInOrder (s : GameState) (mySeat : Nat) : List Nat :=
  match s.playerOrder.findIdx? (fun x => x == mySeat) with
  | none => []
  | some myIdx =>
    ((((List.range s.playerOrder.length).drop 1).map
        (fun i => s.playerOrder.getD ((myIdx + i) % s.playerOrder.length) 0)).filter
      (fun seat => !(getPlayerBySeat s seat).eliminated))

/-- `checkLastStanding` (engine module): with no winner yet, if exactly
one non-eliminated player remains they win with reason
`lastStanding`. -/
def checkLastStanding (s : GameState) : GameState :=
  if s.winner.isSome then s
  else
    match s.players.filter (fun p => !p.eliminated) with
    | [p] =>
      { s with winner := some p.id, winReason := some "lastStanding",
               log := s.log ++ [p.name ++ " is the last player standing and wins the game!"] }
    | _ => s

/-- `checkStagWin` (engine module): with no winner yet, a territory Stag
sum of 18 or more wins immediately with reason `stag18`. -/
def checkStagWin (s : GameState) (seat : Nat) : GameState :=
  if s.winner.isSome then s
  else
    let p := getPlayerBySeat s seat
    if 18 ≤ getStagPoints p then
      { s with winner := some p.id, winReason := some "stag18",
               log := s.log ++ [p.name ++ " wins the game!"] }
    else s

/-- `eliminatePlayer` (engine module): flag the player, drop the seat
from the turn order, discard the hand, then re-check last-standing. -/
def eliminatePlayer (s : GameState) (seat : Nat) : GameState :=
  let player := getPlayerBySeat s seat
  let s1 := modifyPlayer s seat (fun p => { p with eliminated := true })
  let s2 := { s1 with playerOrder := s1.playerOrder.filter (fun x => x != seat) }
  let s3 := { s2 with discard := s2.discard ++ player.hand }
  let s4 := modifyPlayer s3 seat (fun p => { p with hand := [] })
  checkLastStanding s4

/-- `applyAtonement` (engine module): a Stag discarded from hand costs
`stagAtonementCost` contribution tokens unless territory Healing covers
its value; an unpayable cost eliminates the player. -/
def applyAtonement (s : GameState) (seat : Nat) (stagCardId : CardId) : GameState :=
  let stagValue := parseCardValue stagCardId
  let player := getPlayerBySeat s seat
  let healingValue := getTerritoryHealingValue player
  if stagValue ≤ healingValue then
    log s (player.name ++ " discards " ++ cardDisplayName stagCardId
      ++ " - Healing covers atonement.")
  else
    let cost := stagAtonementCost stagValue
    if cost ≤ player.contributionsRemaining then
      let s1 := modifyPlayer s seat (fun p =>
        { p with contributionsRemaining := p.contributionsRemaining - cost,
                 contributionsMade := p.contributionsMade + cost })
      log s1 (player.name ++ " atones " ++ toString cost ++ " for discarding "
        ++ cardDisplayName stagCardId ++ ".")
    else
      eliminatePlayer
        (log s (player.name ++ " cannot atone for " ++ cardDisplayName stagCardId
          ++ " and is eliminated!"))
        seat

/-- `discardFromHand` (engine module): move one named card from a hand
to the discard pile; fails without mutation when the card is absent. -/
def discardFromHand (s : GameState) (seat : Nat) (cardId : CardId) :
    Bool × GameState :=
  let player := getPlayerBySeat s seat
  if player.hand.contains cardId then
    (true,
     modifyPlayer { s with discard := s.discard ++ [cardId] } seat
       (fun p => { p with hand := p.hand.erase cardId }))
  else (false, s)

/-- `playToTerritory` (engine module). -/
def playToTerritory (s : GameState) (seat : Nat) (cardId : CardId) :
    Bool × GameState :=
  let player := getPlayerBySeat s seat
  if player.hand.contains cardId then
    (true,
     modifyPlayer s seat (fun p =>
       { p with hand := p.hand.erase cardId, territory := p.territory ++ [cardId] }))
  else (false, s)

/-- `discardFromHandWithAtonement` (engine module). -/
def discardFromHandWithAtonement (s : GameState) (seat : Nat) (cardId : CardId) :
    GameState :=
  let s1 := (discardFromHand s seat cardId).2
  if parseCardType cardId = .stag then applyAtonement s1 seat cardId else s1

/-- Scoring rows of `triggerDeckExhaustion`: for each non-eliminated
player, the deck-out score and the tiebreak vector
`[magi, healing, hunt, kingscommand]`. -/
def scoreEntriesFor (s : GameState) : List (PlayerState × Nat × List Nat) :=
  (s.players.filter (fun p => !p.eliminated)).map (fun p =>
    let stagCount := countTerritoryType p .stag
    let tithesInTerritory := countTerritoryType p .tithe
    let magiCount := countTerritoryType p .magi
    let healingCount := countTerritoryType p .healing
    let huntCount := countTerritoryType p .hunt
    let kcCount := countTerritoryType p .kingscommand
    (p,
     stagCount + 3 * tithesInTerritory + p.contributionsMade + p.ante + kcCount,
     [magiCount, healingCount, huntCount, kcCount]))

/-- Lexicographic strictly-greater on tiebreak vectors, mirroring the
source comparator which walks the four entries in order. -/
def lexGT : List Nat → List Nat → Bool
  | a :: as, b :: bs => if a ≠ b then decide (b < a) else lexGT as bs
  | _, _ => false

/-- Does the first score row sort strictly before the second under the
source comparator (higher score, then tiebreaks)? -/
def strictlyBetter (x y : PlayerState × Nat × List Nat) : Bool :=
  decide (y.2.1 < x.2.1) || (x.2.1 == y.2.1 && lexGT x.2.2 y.2.2)

/-- First element of the stable descending sort: the earliest row not
strictly beaten by any later row. -/
def pickBest (best : PlayerState × Nat × List Nat) :
    List (PlayerState × Nat × List Nat) → PlayerState × Nat × List Nat
  | [] => best
  | x :: xs => pickBest (if strictlyBetter x best then x else best) xs

/-- `triggerDeckExhaustion` (engine module): score every non-eliminated
player and set the deck-out winner (stable tie order). -/
def triggerDeckExhaustion (s : GameState) : GameState :=
  let s0 := log s "The deck has run out! Scoring final results..."
  let entries := scoreEntriesFor s0
  let s1 := entries.foldl
    (fun acc e => log acc (e.1.name ++ " scores " ++ toString e.2.1)) s0
  match entries with
  | [] => s1
  | e :: es =>
    let best := pickBest e es
    { s1 with winner := some best.1.id, winReason := some "deckOut",
              log := s1.log ++ [best.1.name ++ " wins!"] }

/-! ### Tithe handlers (src/lib/actions/playTithe.ts) -/

/-- `drawForPlayer` (playTithe.ts): draw `count` cards into a hand,
triggering deck-exhaustion scoring if a draw fails. -/
def drawForPlayer (sh : List CardId → List CardId) (s : GameState) (seat : Nat) :
    Nat → GameState
  | 0 => s
  | Nat.succ n =>
    match drawCard sh s with
    | (none, s1) => triggerDeckExhaustion s1
    | (some c, s1) =>
      drawForPlayer sh (modifyPlayer s1 seat (fun p => { p with hand := p.hand ++ [c] }))
        seat n

/-- The seat used by `finishTithe` (playTithe.ts line 264).  The source
reads `pending.playerSeat ?? 0`; only the `titheContribute` variant
carries a `playerSeat` field, so for a `titheDiscard` pending the read
yields `undefined` and the fallback seat 0 is used. -/
def finishTitheSeat : PendingAction → Nat
  | .titheContribute p => p.playerSeat
  | _ => 0

/-- The Tithe card named by the pending action handed to `finishTithe`
(both Tithe variants carry `titheCardId`; other variants never reach
`finishTithe`). -/
def finishTitheCard : PendingAction → CardId
  | .titheContribute p => p.titheCardId
  | .titheDiscard p => p.titheCardId
  | _ => ⟨.tithe, 0⟩

/-- `finishTithe` (playTithe.ts lines 257-276): with at least one
contribution the Tithe enters the territory of the seat computed by
`finishTitheSeat`, otherwise it is discarded; resolution ends. -/
def finishTithe (s : GameState) (pending : PendingAction) (contributed : Bool) :
    GameState :=
  let base :=
    if contributed then
      let seat := finishTitheSeat pending
      let player := getPlayerBySeat s seat
      let s1 := modifyPlayer s seat
        (fun p => { p with territory := p.territory ++ [finishTitheCard pending] })
      log s1 ("Tithe enters " ++ player.name ++ "s territory.")
    else
      log { s with discard := s.discard ++ [finishTitheCard pending] }
        "Tithe is discarded (no contributions made)."
  { base with pendingAction := none, turnPhase := .endOfTurn }

/-- Loop body of `handleTitheSkipEliminated` (playTithe.ts lines
281-319), recursing over the remaining seats. -/
def titheSkipLoop (sh : List CardId → List CardId) (s : GameState)
    (p : PendingTitheDiscard) : List Nat → Option String × GameState
  | [] =>
    let tithePlayer := getPlayerBySeat s p.tithePlayerSeat
    if tithePlayer.eliminated then (none, finishTithe s (.titheDiscard p) false)
    else
      (none, { s with pendingAction := some (.titheContribute
                  ⟨p.tithePlayerSeat, p.titheCardId, p.contributionsSoFar⟩) })
  | nextSeat :: remaining =>
    let nextPlayer := getPlayerBySeat s nextSeat
    if nextPlayer.eliminated then titheSkipLoop sh s p remaining
    else if nextPlayer.hand.length = 0 then
      let s1 := drawForPlayer sh s nextSeat 2
      if s1.winner.isSome then (none, s1)
      else titheSkipLoop sh s1 p remaining
    else
      (none, { s with pendingAction := some (.titheDiscard
        { p with currentDiscardSeat := nextSeat, remainingDiscardSeats := remaining }) })

/-- `handleTitheSkipEliminated` (playTithe.ts). -/
def handleTitheSkipEliminated (sh : List CardId → List CardId) (s : GameState)
    (p : PendingTitheDiscard) : Option String × GameState :=
  titheSkipLoop sh s p p.remainingDiscardSeats

/-- `handleTitheAdvance` (playTithe.ts lines 324-327): re-reads the
pending action (an unchecked cast in the source; only ever called with a
`titheDiscard` pending). -/
def handleTitheAdvance (sh : List CardId → List CardId) (s : GameState) :
    Option String × GameState :=
  match s.pendingAction with
  | some (.titheDiscard p) => handleTitheSkipEliminated sh s p
  | _ => (none, s)

/-- The `for id of cardIds` discard loop shared verbatim by
`handleTitheDiscard` (playTithe.ts 111-114) and `handleHuntDiscard`
(hunt module 225-228): discard each card with atonement, stopping early
if the player is eliminated. -/
def discardLoopWithAtonement (s : GameState) (seat : Nat) :
    List CardId → GameState
  | [] => s
  | c :: rest =>
    let s1 := discardFromHandWithAtonement s seat c
    if (getPlayerBySeat s1 seat).eliminated then s1
    else discardLoopWithAtonement s1 seat rest

/-- Advance logic after a Tithe discard (playTithe.ts lines 123-172).
The source passes the original `pending` object to
`handleTitheSkipEliminated` even after overwriting
`state.pendingAction`. -/
def titheAdvanceAfterDiscard (sh : List CardId → List CardId) (s : GameState)
    (p : PendingTitheDiscard) : Option String × GameState :=
  match p.remainingDiscardSeats with
  | nextSeat :: rest =>
    let nextPlayer := getPlayerBySeat s nextSeat
    if nextPlayer.eliminated then
      let s1 := { s with pendingAction := some (.titheDiscard
        { p with currentDiscardSeat := nextSeat, remainingDiscardSeats := rest }) }
      handleTitheSkipEliminated sh s1 p
    else if nextPlayer.hand.length = 0 then
      let s1 := drawForPlayer sh s nextSeat 2
      if s1.winner.isSome then (none, s1)
      else
        handleTitheAdvance sh { s1 with pendingAction := some (.titheDiscard
          { p with remainingDiscardSeats := rest }) }
    else
      (none, { s with pendingAction := some (.titheDiscard
        { p with currentDiscardSeat := nextSeat, remainingDiscardSeats := rest }) })
  | [] =>
    let tithePlayer := getPlayerBySeat s p.tithePlayerSeat
    if tithePlayer.eliminated then (none, finishTithe s (.titheDiscard p) false)
    else if 2 ≤ p.contributionsSoFar then (none, finishTithe s (.titheDiscard p) true)
    else
      (none, { s with pendingAction := some (.titheContribute
                  ⟨p.tithePlayerSeat, p.titheCardId, p.contributionsSoFar⟩) })

/-- `handleTitheDiscard` (playTithe.ts lines 83-175). -/
def handleTitheDiscard (sh : List CardId → List CardId) (s : GameState)
    (seat : Nat) (cardIds : List CardId) : Option String × GameState :=
  match s.pendingAction with
  | some (.titheDiscard p) =>
    if p.currentDiscardSeat ≠ seat then (some "Not your turn to discard", s)
    else
      let player := getPlayerBySeat s seat
      let mustDiscard := min 2 player.hand.length
      if cardIds.length ≠ mustDiscard then (some "Wrong discard count", s)
      else if cardIds.dedup.length ≠ cardIds.length then (some "Duplicate cards", s)
      else if !(cardIds.all (fun c => player.hand.contains c)) then
        (some "Card is not in your hand", s)
      else
        let s1 := discardLoopWithAtonement s seat cardIds
        if !(getPlayerBySeat s1 seat).eliminated then
          let s2 := drawForPlayer sh (log s1 (player.name ++ " discards for Tithe."))
            seat 2
          if s2.winner.isSome then (none, s2)
          else titheAdvanceAfterDiscard sh s2 p
        else titheAdvanceAfterDiscard sh s1 p
  | _ => (some "No pending tithe discard", s)

/-- `handleTitheContribute` (playTithe.ts lines 180-240). -/
def handleTitheContribute (sh : List CardId → List CardId) (s : GameState)
    (seat : Nat) (contribute : Bool) : Option String × GameState :=
  match s.pendingAction with
  | some (.titheContribute p) =>
    if p.playerSeat ≠ seat then (some "Not your turn", s)
    else if !contribute || 2 ≤ p.contributionsSoFar then
      (none, finishTithe s (.titheContribute p) (decide (0 < p.contributionsSoFar)))
    else
      let player := getPlayerBySeat s seat
      if player.contributionsRemaining < 1 then
        (some "Not enough contributions remaining", s)
      else
        let s1 := modifyPlayer s seat (fun q =>
          { q with contributionsRemaining := q.contributionsRemaining - 1,
                   contributionsMade := q.contributionsMade + 1 })
        let newContributions := p.contributionsSoFar + 1
        let s2 := log s1 (player.name ++ " contributes 1 for Tithe cycle.")
        if 0 < (getPlayerBySeat s2 seat).hand.length then
          (none, { s2 with pendingAction := some (.titheDiscard
            ⟨p.playerSeat, p.titheCardId, p.playerSeat, [], newContributions⟩) })
        else
          let s3 := drawForPlayer sh s2 seat 2
          if s3.winner.isSome then (none, s3)
          else if newContributions < 2 then
            (none, { s3 with pendingAction := some (.titheContribute
              { p with contributionsSoFar := newContributions }) })
          else (none, finishTithe s3 (.titheContribute p) true)
  | _ => (some "No pending tithe contribute", s)

/-- `handlePlayTithe` (playTithe.ts lines 19-78). -/
def handlePlayTithe (sh : List CardId → List CardId) (s : GameState)
    (seat : Nat) (cardId : CardId) : Option String × GameState :=
  if s.turnPhase ≠ .territoryAction then (some "Not in territory action phase", s)
  else if parseCardType cardId ≠ .tithe then (some "Not a Tithe card", s)
  else
    let player := getPlayerBySeat s seat
    if !player.hand.contains cardId then (some "Card not in your hand", s)
    else
      let s1 := modifyPlayer s seat (fun q => { q with hand := q.hand.erase cardId })
      let s2 := log s1 (player.name ++ " plays " ++ cardDisplayName cardId ++ ".")
      let opponentSeats := getOpponentSeatsInOrder s2 seat
      if 0 < (getPlayerBySeat s2 seat).hand.length then
        (none, { s2 with pendingAction := some (.titheDiscard
          ⟨seat, cardId, seat, opponentSeats, 0⟩) })
      else
        let s3 := drawForPlayer sh s2 seat 2
        if s3.winner.isSome then (none, s3)
        else
          match opponentSeats with
          | o :: os =>
            (none, { s3 with pendingAction := some (.titheDiscard
              ⟨seat, cardId, o, os, 0⟩) })
          | [] =>
            (none, { s3 with pendingAction := some (.titheContribute
              ⟨seat, cardId, 0⟩) })

/-! ### Hunt handlers (hunt module, src/unnamed/part_002) -/

/-- The three-iteration burn loop of `handlePlayHunt`. -/
def burnCards (sh : List CardId → List CardId) (s : GameState) :
    Nat → Bool × GameState
  | 0 => (true, s)
  | Nat.succ n =>
    match burnCard sh s with
    | (false, s1) => (false, s1)
    | (true, s1) => burnCards sh s1 n

/-- Draw loop of `finishHunt` (hunt module lines 295-304): returns
`some drawn` with the updated state, or `none` after deck-exhaustion
scoring (the source returns immediately in that case). -/
def finishHuntDrawLoop (sh : List CardId → List CardId) (s : GameState)
    (seat : Nat) : Nat → Nat → Option Nat × GameState
  | 0, drawn => (some drawn, s)
  | Nat.succ n, drawn =>
    match drawCard sh s with
    | (none, s1) => (none, triggerDeckExhaustion s1)
    | (some c, s1) =>
      finishHuntDrawLoop sh
        (modifyPlayer s1 seat (fun q => { q with hand := q.hand ++ [c] })) seat n
        (drawn + 1)

/-- Final placement step of `finishHunt`: Hunt card into the territory
of the hunter, resolution ends. -/
def huntFinishPlace (s : GameState) (seat : Nat) (huntCardId : CardId) : GameState :=
  let s1 := modifyPlayer s seat (fun q => { q with territory := q.territory ++ [huntCardId] })
  { s1 with pendingAction := none, turnPhase := .endOfTurn }

/-- `finishHunt` (hunt module lines 284-317): the hunter draws
`max 0 (drawsBase - averters)` cards (Nat subtraction is the source
`Math.max(0, ...)`), then the Hunt card enters the territory. -/
def finishHunt (sh : List CardId → List CardId) (s : GameState)
    (huntPlayerSeat : Nat) (huntCardId : CardId) (drawsBase averters : Nat) :
    GameState :=
  let huntPlayer := getPlayerBySeat s huntPlayerSeat
  let drawCount := drawsBase - averters
  if 0 < drawCount then
    match finishHuntDrawLoop sh s huntPlayerSeat drawCount 0 with
    | (none, s1) => s1
    | (some drawn, s1) =>
      huntFinishPlace
        (log s1 (huntPlayer.name ++ " draws " ++ toString drawn
          ++ " cards from the Hunt."))
        huntPlayerSeat huntCardId
  else
    huntFinishPlace
      (log s (huntPlayer.name ++ " draws no cards (all opponents averted)."))
      huntPlayerSeat huntCardId

/-- `startDiscardPhaseOrFinish` (hunt module lines 250-271). -/
def startDiscardPhaseOrFinish (sh : List CardId → List CardId) (s : GameState)
    (p : PendingHuntResponse) (averters : Nat) (nonAverterSeats : List Nat) :
    GameState :=
  match nonAverterSeats with
  | d :: ds =>
    { s with pendingAction := some (.huntDiscard
      ⟨p.huntPlayerSeat, p.huntCardId, d, ds, p.discardsPerPlayer, p.drawsForHunter,
       averters⟩) }
  | [] => finishHunt sh s p.huntPlayerSeat p.huntCardId p.drawsForHunter averters

/-- Responder-advance step of `handleHuntResponse` (hunt module lines
167-186). -/
def huntResponseAdvance (sh : List CardId → List CardId) (s : GameState)
    (p : PendingHuntResponse) (seat : Nat) (averted : Bool) : GameState :=
  let newAverters := if averted then p.averters + 1 else p.averters
  let newNonAverterSeats :=
    if averted then p.nonAverterSeats else p.nonAverterSeats ++ [seat]
  match p.remainingResponderSeats with
  | r :: rest =>
    { s with pendingAction := some (.huntResponse
      { p with respondingSeat := r, remainingResponderSeats := rest,
               averters := newAverters, nonAverterSeats := newNonAverterSeats }) }
  | [] => startDiscardPhaseOrFinish sh s p newAverters newNonAverterSeats

/-- `handlePlayHunt` (hunt module lines 24-86). -/
def handlePlayHunt (sh : List CardId → List CardId) (s : GameState)
    (seat : Nat) (cardId : CardId) : Option String × GameState :=
  if s.turnPhase ≠ .territoryAction then (some "Not in territory action phase", s)
  else if parseCardType cardId ≠ .hunt then (some "Not a Hunt card", s)
  else
    let player := getPlayerBySeat s seat
    if !player.hand.contains cardId then (some "Card not in your hand", s)
    else
      match burnCards sh s 3 with
      | (false, s1) => (none, triggerDeckExhaustion s1)
      | (true, s1) =>
        let player1 := getPlayerBySeat s1 seat
        let huntCardValue := parseCardValue cardId
        let huntsInTerritory := countTerritoryType player1 .hunt
        let huntTotalValue := huntCardValue + huntsInTerritory
        let kcCount := countTerritoryType player1 .kingscommand
        let discardsPerPlayer := 2 + kcCount
        let drawsForHunter := 2 + kcCount
        let s2 := log s1 (player1.name ++ " plays " ++ cardDisplayName cardId ++ ".")
        let s3 := modifyPlayer s2 seat (fun q => { q with hand := q.hand.erase cardId })
        match getOpponentSeatsInOrder s3 seat with
        | [] => (none, finishHunt sh s3 seat cardId drawsForHunter 0)
        | o :: os =>
          (none, { s3 with pendingAction := some (.huntResponse
            ⟨seat, cardId, huntTotalValue, o, os, discardsPerPlayer, drawsForHunter,
             0, []⟩) })

/-- `handleHuntResponse` (hunt module lines 99-188).  Revealed cards go
to the territory whether or not the avert succeeded; a revealed Magi is
also flagged as Magi-as-Healing. -/
def handleHuntResponse (sh : List CardId → List CardId) (s : GameState)
    (seat : Nat) (healingId magiId : Option CardId) : Option String × GameState :=
  match s.pendingAction with
  | some (.huntResponse p) =>
    if p.respondingSeat ≠ seat then (some "Not your turn to respond", s)
    else
      let player := getPlayerBySeat s seat
      match healingId with
      | none =>
        let s1 := log s (player.name ++ " accepts the Hunt.")
        (none, huntResponseAdvance sh s1 p seat false)
      | some h =>
        if parseCardType h ≠ .healing then (some "Not a Healing card", s)
        else if !player.hand.contains h then (some "Healing card not in your hand", s)
        else if (match magiId with
                 | some m => decide (parseCardType m ≠ .magi)
                 | none => false) then (some "Not a Magi card", s)
        else if (match magiId with
                 | some m => !player.hand.contains m
                 | none => false) then (some "Magi card not in your hand", s)
        else
          let healingCardValue := parseCardValue h
          let healingInTerritory := countTerritoryType player .healing
          let magiAsHealingCount := player.territoryMagiAsHealing.length
          let magiBonus := if magiId.isSome then 6 else 0
          let healingTotal :=
            healingCardValue + healingInTerritory + magiAsHealingCount + magiBonus
          let averted : Bool := decide (p.huntTotalValue ≤ healingTotal)
          let s1 := log s (player.name ++
            (if averted then " averts the Hunt." else " fails to avert the Hunt."))
          let s2 := modifyPlayer s1 seat (fun q =>
            { q with hand := q.hand.erase h, territory := q.territory ++ [h] })
          let s3 :=
            match magiId with
            | some m => modifyPlayer s2 seat (fun q =>
                { q with hand := q.hand.erase m, territory := q.territory ++ [m],
                         territoryMagiAsHealing := q.territoryMagiAsHealing ++ [m] })
            | none => s2
          (none, huntResponseAdvance sh s3 p seat averted)
  | _ => (some "No pending hunt response", s)

/-- `handleHuntDiscard` (hunt module lines 197-244).  After the
atonement-bearing discards there is no `winner` check before advancing
or finishing. -/
def handleHuntDiscard (sh : List CardId → List CardId) (s : GameState)
    (seat : Nat) (cardIds : List CardId) : Option String × GameState :=
  match s.pendingAction with
  | some (.huntDiscard p) =>
    if p.currentDiscardSeat ≠ seat then (some "Not your turn to discard", s)
    else
      let player := getPlayerBySeat s seat
      let mustDiscard := min p.discardsPerPlayer player.hand.length
      if cardIds.length ≠ mustDiscard then (some "Wrong discard count", s)
      else if cardIds.dedup.length ≠ cardIds.length then
        (some "Duplicate cards in discard selection", s)
      else if !(cardIds.all (fun c => player.hand.contains c)) then
        (some "Card is not in your hand", s)
      else
        let s1 := discardLoopWithAtonement s seat cardIds
        let s2 := log s1 (player.name ++ " discards cards from the Hunt.")
        match p.remainingDiscardSeats with
        | d :: ds =>
          (none, { s2 with pendingAction := some (.huntDiscard
            { p with currentDiscardSeat := d, remainingDiscardSeats := ds }) })
        | [] =>
          (none, finishHunt sh s2 p.huntPlayerSeat p.huntCardId p.drawsForHunter
            p.averters)
  | _ => (some "No pending hunt discard", s)

/-! ### King's Command handlers (src/unnamed/part_003) -/

/-- The `while` loop of `handleKingCommandResponse` skipping eliminated
responders: given the seat just shifted off the queue and the rest of
the queue, keep shifting while the seat is eliminated and seats
remain. -/
def kcSkipEliminated (s : GameState) (seat : Nat) :
    List Nat → Nat × List Nat
  | [] => (seat, [])
  | r :: rs =>
    if (getPlayerBySeat s seat).eliminated then kcSkipEliminated s r rs
    else (seat, r :: rs)

/-- `goToCollection` (part_003 lines 192-207). -/
def goToCollection (s : GameState) (p : PendingKingCommandResponse) : GameState :=
  let commandPlayer := getPlayerBySeat s p.commandPlayerSeat
  if p.discardedStags.length = 0 || commandPlayer.eliminated then
    { s with pendingAction := none, turnPhase := .endOfTurn }
  else
    { s with pendingAction := some (.kingCommandCollect
      ⟨p.commandPlayerSeat, p.discardedStags⟩) }

/-- Advance step of `handleKingCommandResponse` (part_003 lines
116-139). -/
def kcAdvance (s : GameState) (p : PendingKingCommandResponse) : GameState :=
  match p.remainingResponderSeats with
  | r :: rs =>
    let next := kcSkipEliminated s r rs
    if (getPlayerBySeat s next.1).eliminated then goToCollection s p
    else
      { s with pendingAction := some (.kingCommandResponse
        { p with respondingSeat := next.1, remainingResponderSeats := next.2 }) }
  | [] => goToCollection s p

/-- `handlePlayKingsCommand` (part_003 lines 21-61): the card enters the
territory immediately on play. -/
def handlePlayKingsCommand (s : GameState) (seat : Nat) (cardId : CardId) :
    Option String × GameState :=
  if s.turnPhase ≠ .territoryAction then (some "Not in territory action phase", s)
  else if parseCardType cardId ≠ .kingscommand then (some "Not a Kings Command card", s)
  else
    let player := getPlayerBySeat s seat
    if !player.hand.contains cardId then (some "Card not in your hand", s)
    else
      let s1 := modifyPlayer s seat (fun q =>
        { q with hand := q.hand.erase cardId, territory := q.territory ++ [cardId] })
      let s2 := log s1 (player.name ++ " plays " ++ cardDisplayName cardId ++ "!")
      match getOpponentSeatsInOrder s2 seat with
      | [] => (none, { s2 with turnPhase := .endOfTurn })
      | o :: os =>
        (none, { s2 with pendingAction := some (.kingCommandResponse
          ⟨seat, o, os, []⟩) })

/-- `handleKingCommandResponse` (part_003 lines 67-142).  After an
atonement that ends the game the pending action is cleared and the
handler stops. -/
def handleKingCommandResponse (s : GameState) (seat : Nat)
    (stagId : Option CardId) : Option String × GameState :=
  match s.pendingAction with
  | some (.kingCommandResponse p) =>
    if p.respondingSeat ≠ seat then (some "Not your turn to respond", s)
    else
      let player := getPlayerBySeat s seat
      let stags := player.hand.filter (fun c => parseCardType c == .stag)
      match stagId with
      | none =>
        if 0 < stags.length then
          (some "You have Stags in your hand and must discard one", s)
        else
          (none, kcAdvance (log s (player.name ++ " reveals no Stags.")) p)
      | some stag =>
        if parseCardType stag ≠ .stag then (some "Not a Stag card", s)
        else if !player.hand.contains stag then (some "Card not in your hand", s)
        else
          let s1 := log s (player.name ++ " discards " ++ cardDisplayName stag
            ++ " to Kings Command.")
          let s2 := (discardFromHand s1 seat stag).2
          let s3 := applyAtonement s2 seat stag
          let p1 := { p with discardedStags := p.discardedStags ++ [stag] }
          if s3.winner.isSome then (none, { s3 with pendingAction := none })
          else (none, kcAdvance s3 p1)
  | _ => (some "No pending king command response", s)

/-- Collection loop of `handleKingCommandCollect` (part_003 lines
170-175): remove each taken Stag from the discard pile when present
(`indexOf` / `splice`; nothing is removed when absent) and push it into
the hand unconditionally. -/
def collectStagsLoop (s : GameState) (seat : Nat) : List CardId → GameState
  | [] => s
  | c :: rest =>
    let s1 := { s with discard := s.discard.erase c }
    let s2 := modifyPlayer s1 seat (fun q => { q with hand := q.hand ++ [c] })
    collectStagsLoop s2 seat rest

/-- `handleKingCommandCollect` (part_003 lines 148-186).  Each selected
Stag is checked for membership in `discardedStags`; there is no
duplicate check on the payload. -/
def handleKingCommandCollect (s : GameState) (seat : Nat)
    (stagIds : List CardId) : Option String × GameState :=
  match s.pendingAction with
  | some (.kingCommandCollect p) =>
    if p.commandPlayerSeat ≠ seat then (some "Not your turn to collect", s)
    else if !(stagIds.all (fun c => p.discardedStags.contains c)) then
      (some "Stag is not available to collect", s)
    else
      let player := getPlayerBySeat s seat
      let s1 :=
        if 0 < stagIds.length then
          log (collectStagsLoop s seat stagIds)
            (player.name ++ " takes Stags from Kings Command.")
        else log s (player.name ++ " takes no Stags from Kings Command.")
      (none, { s1 with pendingAction := none, turnPhase := .endOfTurn })
  | _ => (some "No pending king command collect", s)

/-! ### Draw-a-card kingdom action (src/lib/actions/drawCard.ts) -/

/-- `handleDrawCard` (drawCard.ts): draw one card into the hand, deal
one face-up to the Kingdom, move to the territory phase. -/
def handleDrawCard (sh : List CardId → List CardId) (s : GameState) (seat : Nat) :
    Option String × GameState :=
  if s.turnPhase ≠ .kingdomAction then (some "Not in kingdom action phase", s)
  else
    match drawCard sh s with
    | (none, s1) => (none, triggerDeckExhaustion s1)
    | (some c, s1) =>
      let s2 := modifyPlayer s1 seat (fun q => { q with hand := q.hand ++ [c] })
      let s3 := log s2 ((getPlayerBySeat s2 seat).name ++ " drew a card.")
      match dealToKingdom sh s3 with
      | (false, s4) => (none, triggerDeckExhaustion s4)
      | (true, s4) => (none, { s4 with turnPhase := .territoryAction })

/-! ### Card conservation -/

/-- All card occurrences across every zone: deck, discard, burn pile,
kingdom, every hand and every territory (`territoryMagiAsHealing` is a
flag subset of territory, not a zone of its own). -/
def zoneCards (s : GameState) : List CardId :=
  s.deck ++ s.discard ++ s.burned ++ s.kingdom
    ++ (s.players.flatMap (fun p => p.hand))
    ++ (s.players.flatMap (fun p => p.territory))

/-- Card conservation: the zones jointly hold exactly the 51-card
catalog, each card exactly once. -/
def conserved (s : GameState) : Prop :=
  (zoneCards s).length = 51 ∧ ∀ c ∈ allCards, (zoneCards s).count c = 1

instance (s : GameState) : Decidable (conserved s) := by
  unfold conserved; infer_instance

/-! ### Concrete states used by the theorems below -/

/-- The identity shuffle: a legitimate instantiation of the shuffle
parameter (it permutes its input). -/
def shId : List CardId → List CardId := fun l => l

/-- Mid-game state for the King's Command collection step: seat 0 played
King's Command 1 (in territory), seat 1 discarded Stag 1 to it (paying 1
atonement), every other card is in the deck.  All 51 cards appear
exactly once. -/
def deckC1 : List CardId := (allCards.erase ⟨.stag, 1⟩).erase ⟨.kingscommand, 1⟩

def p0C1 : PlayerState := ⟨"p0", "Alice", 0, [], [⟨.kingscommand, 1⟩], [], 12, 0, 0, false⟩

def p1C1 : PlayerState := ⟨"p1", "Bob", 1, [], [], [], 11, 1, 0, false⟩

def sC1 : GameState :=
  ⟨[p0C1, p1C1], [0, 1], 0, .territoryAction,
   some (.kingCommandCollect ⟨0, [⟨.stag, 1⟩]⟩),
   deckC1, [⟨.stag, 1⟩], [], [], [], none, none⟩

/-- State for the Tithe-ownership theorem: the Tithe of seat 1 (who paid
both contribution cycles) is finishing its second self-cycle discard. -/
def p0C3 : PlayerState := ⟨"p0", "Alice", 0, [], [], [], 12, 0, 0, false⟩

def p1C3 : PlayerState :=
  ⟨"p1", "Bob", 1, [⟨.healing, 1⟩, ⟨.healing, 2⟩], [], [], 10, 2, 0, false⟩

def sC3 : GameState :=
  ⟨[p0C3, p1C3], [0, 1], 1, .territoryAction,
   some (.titheDiscard ⟨1, ⟨.tithe, 1⟩, 1, [], 2⟩),
   [⟨.hunt, 1⟩, ⟨.hunt, 2⟩], [], [], [], [], none, none⟩

/-- State for the post-win Hunt theorem: seat 0 played Hunt 5, seat 1
(no tokens left) must discard 2; discarding the Stag 12 eliminates seat
1 and makes seat 0 the last player standing. -/
def p0C4 : PlayerState := ⟨"p0", "Alice", 0, [], [], [], 12, 0, 0, false⟩

def p1C4 : PlayerState :=
  ⟨"p1", "Bob", 1, [⟨.stag, 12⟩, ⟨.healing, 1⟩], [], [], 0, 12, 0, false⟩

def sC4 : GameState :=
  ⟨[p0C4, p1C4], [0, 1], 0, .territoryAction,
   some (.huntDiscard ⟨0, ⟨.hunt, 5⟩, 1, [], 2, 2, 0⟩),
   [⟨.hunt, 1⟩, ⟨.hunt, 2⟩], [], [], [], [], none, none⟩

/-- State with an empty deck and a one-card discard pile. -/
def sC7 : GameState :=
  ⟨[], [], 0, .kingdomAction, none, [], [⟨.stag, 1⟩], [], [], [], none, none⟩

/-- State with an empty deck and a two-card discard pile. -/
def sC7b : GameState :=
  ⟨[], [], 0, .kingdomAction, none, [], [⟨.stag, 1⟩, ⟨.stag, 2⟩], [], [], [], none, none⟩

/-- Hunter for the Hunt-arithmetic witness: Hunt 5 in hand, 2 Hunts and
1 King's Command already in territory. -/
def p0C8 : PlayerState :=
  ⟨"p0", "Alice", 0, [⟨.hunt, 5⟩],
   [⟨.hunt, 1⟩, ⟨.hunt, 2⟩, ⟨.kingscommand, 1⟩], [], 12, 0, 0, false⟩

def p1C8 : PlayerState := ⟨"p1", "Bob", 1, [⟨.healing, 1⟩], [], [], 12, 0, 0, false⟩

def sC8 : GameState :=
  ⟨[p0C8, p1C8], [0, 1], 0, .territoryAction, none,
   [⟨.stag, 1⟩, ⟨.stag, 2⟩, ⟨.stag, 3⟩, ⟨.stag, 4⟩, ⟨.stag, 5⟩],
   [], [], [], [], none, none⟩

/-- State for the contribution-cap witness: the Tithe owner has already
paid 2 contribution cycles. -/
def p0C9 : PlayerState := ⟨"p0", "Alice", 0, [⟨.healing, 1⟩], [], [], 12, 0, 0, false⟩

def sC9 : GameState :=
  ⟨[p0C9], [0], 0, .territoryAction,
   some (.titheContribute ⟨0, ⟨.tithe, 1⟩, 2⟩),
   [⟨.stag, 1⟩, ⟨.stag, 2⟩], [], [], [], [], none, none⟩

/-- State for the Hunt-response witness: seat 1 reveals Healing 1
against a Hunt of total value 12 (a failing avert). -/
def p0C10 : PlayerState := ⟨"p0", "Alice", 0, [], [], [], 12, 0, 0, false⟩

def p1C10 : PlayerState :=
  ⟨"p1", "Bob", 1, [⟨.healing, 1⟩, ⟨.stag, 2⟩], [], [], 12, 0, 0, false⟩

def prC10 : PendingHuntResponse := ⟨0, ⟨.hunt, 12⟩, 12, 1, [], 2, 2, 0, []⟩

def sC10 : GameState :=
  ⟨[p0C10, p1C10], [0, 1], 0, .territoryAction, some (.huntResponse prC10),
   [⟨.stag, 1⟩, ⟨.stag, 3⟩, ⟨.stag, 4⟩], [], [], [], [], none, none⟩

/-! ### Theorems -/

/-- C1: card conservation is broken by `handleKingCommandCollect`.  In a
fully conserved mid-game state whose pending collection offers Stag 1,
the handler accepts the duplicate payload `[stag-1, stag-1]` (it checks
membership in `discardedStags` but never duplicates), removes the single
Stag 1 from the discard pile once, and pushes it into the collector's
hand twice: afterwards Stag 1 occurs twice across the zones and the
51-card partition no longer holds. -/
theorem c1_kingCommandCollect_duplicate_breaks_conservation :
    conserved sC1
      ∧ (handleKingCommandCollect sC1 0 [⟨.stag, 1⟩, ⟨.stag, 1⟩]).1 = none
      ∧ (zoneCards
          (handleKingCommandCollect sC1 0 [⟨.stag, 1⟩, ⟨.stag, 1⟩]).2).count ⟨.stag, 1⟩ = 2
      ∧ ¬ conserved (handleKingCommandCollect sC1 0 [⟨.stag, 1⟩, ⟨.stag, 1⟩]).2 := by
  exact ⟨by decide, by decide, by decide, by decide⟩

/-- C2: the Stag discard-cost table disagrees with the claimed values at
10-12.  `stagDiscardCost` (src/lib/cards.ts) returns 6 for values above
9, while the view projector's inline availability check and the in-game
rules screen both use 8, as the claim states. -/
theorem c2_stagDiscardCost_table_mismatch :
    stagDiscardCost 1 = 1 ∧ stagDiscardCost 3 = 1
      ∧ stagDiscardCost 4 = 2 ∧ stagDiscardCost 6 = 2
      ∧ stagDiscardCost 7 = 4 ∧ stagDiscardCost 9 = 4
      ∧ stagDiscardCost 10 = 6 ∧ stagDiscardCost 12 = 6
      ∧ stagDiscardCost 10 ≠ 8
      ∧ viewPlayStagCost 10 = 8 ∧ viewPlayStagCost 12 = 8
      ∧ rulesDrawerStagDiscardCost 10 = 8
      ∧ stagDiscardCost 10 ≠ viewPlayStagCost 10 := by
  decide

/-- C3: a completed Tithe resolution with contributions paid does not
put the Tithe in its owner's territory when it ends inside
`handleTitheDiscard`.  In `sC3` the Tithe owner is seat 1 and both
contribution cycles were paid (`contributionsSoFar = 2`); after the
final discard the resolution finishes, but `finishTithe` reads
`pending.playerSeat ?? 0` on a `titheDiscard` pending (which only has
`tithePlayerSeat`), so the Tithe card lands in seat 0's territory. -/
theorem c3_finishTithe_wrong_owner_territory :
    (handleTitheDiscard shId sC3 1 [⟨.healing, 1⟩, ⟨.healing, 2⟩]).1 = none
      ∧ (handleTitheDiscard shId sC3 1 [⟨.healing, 1⟩, ⟨.healing, 2⟩]).2.pendingAction = none
      ∧ (getPlayerBySeat
          (handleTitheDiscard shId sC3 1 [⟨.healing, 1⟩, ⟨.healing, 2⟩]).2 0).territory
        = [⟨.tithe, 1⟩]
      ∧ (getPlayerBySeat
          (handleTitheDiscard shId sC3 1 [⟨.healing, 1⟩, ⟨.healing, 2⟩]).2 1).territory
        = [] := by
  exact ⟨by decide, by decide, by decide, by decide⟩

/-- C4: the Hunt sub-engine keeps mutating state after the game is won.
In `sC4`, seat 1's forced Hunt discard of Stag 12 cannot be atoned, seat
1 is eliminated and seat 0 wins by last-standing (winner set
mid-handler); `handleHuntDiscard` then calls `finishHunt` without any
winner check, so the already-victorious hunter still draws 2 cards and
the Hunt card still enters their territory. -/
theorem c4_hunt_mutates_after_win :
    (handleHuntDiscard shId sC4 1 [⟨.stag, 12⟩, ⟨.healing, 1⟩]).1 = none
      ∧ (handleHuntDiscard shId sC4 1 [⟨.stag, 12⟩, ⟨.healing, 1⟩]).2.winner = some "p0"
      ∧ (handleHuntDiscard shId sC4 1 [⟨.stag, 12⟩, ⟨.healing, 1⟩]).2.winReason
        = some "lastStanding"
      ∧ (getPlayerBySeat
          (handleHuntDiscard shId sC4 1 [⟨.stag, 12⟩, ⟨.healing, 1⟩]).2 0).hand.length = 2
      ∧ ⟨.hunt, 5⟩ ∈ (getPlayerBySeat
          (handleHuntDiscard shId sC4 1 [⟨.stag, 12⟩, ⟨.healing, 1⟩]).2 0).territory := by
  exact ⟨by decide, by decide, by decide, by decide, by decide⟩

/-- C7 counterexample: with an empty deck and exactly one card in the
discard pile, `drawCard` reshuffles that card into the deck, burns it,
and then fails — it returns `none` although the discard pile was
non-empty, contradicting the claim that a draw succeeds whenever deck or
discard is non-empty. -/
theorem c7_single_discard_draw_fails :
    sC7.deck = [] ∧ sC7.discard ≠ []
      ∧ (drawCard shId sC7).1 = none
      ∧ (drawCard shId sC7).2.burned = [⟨.stag, 1⟩]
      ∧ (drawCard shId sC7).2.discard = [] := by
  exact ⟨by decide, by decide, by decide, by decide, by decide⟩

theorem map_modifyFirstPlayer {γ : Type} (g : PlayerState → γ) (f : PlayerState → PlayerState)
    (seat : Nat) (hgf : ∀ q, g (f q) = g q) :
    ∀ ps : List PlayerState, (modifyFirstPlayer ps seat f).map g = ps.map g := by
  intro ps
  induction ps with
  | nil => rfl
  | cons p rest ih =>
    unfold modifyFirstPlayer
    split
    · simp [hgf]
    · simpa using ih

/-- C9: Tithe contribution cap.  A `titheContribute` action whose
pending action already records `contributionsSoFar >= 2` never starts
another discard/draw cycle: the resolution finishes (pending action
cleared, turn moves to `endOfTurn`) and nobody's contribution counters
change, regardless of the `contribute` flag and of how many tokens the
player still has. -/
theorem c9_titheContribute_cap (sh : List CardId → List CardId) (s : GameState)
    (seat : Nat) (p : PendingTitheContribute) (contribute : Bool)
    (hpend : s.pendingAction = some (.titheContribute p))
    (hseat : p.playerSeat = seat) (hcap : 2 ≤ p.contributionsSoFar) :
    (handleTitheContribute sh s seat contribute).1 = none
      ∧ (handleTitheContribute sh s seat contribute).2.pendingAction = none
      ∧ (handleTitheContribute sh s seat contribute).2.turnPhase = .endOfTurn
      ∧ (handleTitheContribute sh s seat contribute).2.players.map
          (fun q => (q.contributionsRemaining, q.contributionsMade))
        = s.players.map (fun q => (q.contributionsRemaining, q.contributionsMade)) := by
  have hpos : 0 < p.contributionsSoFar := lt_of_lt_of_le (by norm_num) hcap
  have h1 : ¬ (p.playerSeat ≠ seat) := by simp [hseat]
  have h2 : (!contribute || decide (2 ≤ p.contributionsSoFar)) = true := by simp [hcap]
  have h3 : decide (0 < p.contributionsSoFar) = true := decide_eq_true hpos
  unfold handleTitheContribute
  simp only [hpend, h1, if_false, h2, if_true]
  refine ⟨trivial, ?_, ?_, ?_⟩
  · rfl
  · rfl
  · simp only [finishTithe, h3, if_true, log, modifyPlayer]
    apply map_modifyFirstPlayer
    intro q
    rfl

theorem find?_modifyFirst_self (seat : Nat) (f : PlayerState → PlayerState)
    (hf : ∀ q, (f q).seatIndex = q.seatIndex) :
    ∀ ps : List PlayerState,
      (modifyFirstPlayer ps seat f).find? (fun q => q.seatIndex == seat)
        = (ps.find? (fun q => q.seatIndex == seat)).map f := by
  intro ps
  induction ps with
  | nil => rfl
  | cons p rest ih =>
    unfold modifyFirstPlayer
    by_cases hp : p.seatIndex = seat
    · rw [if_pos hp]
      rw [List.find?_cons_of_pos _ (by simp [hf, hp]),
          List.find?_cons_of_pos _ (by simp [hp])]
      rfl
    · rw [if_neg hp]
      rw [List.find?_cons_of_neg _ (by simp [hp]),
          List.find?_cons_of_neg _ (by simp [hp])]
      exact ih

theorem find?_modifyFirst_other (seat x : Nat) (f : PlayerState → PlayerState)
    (hf : ∀ q, (f q).seatIndex = q.seatIndex) (hx : x ≠ seat) :
    ∀ ps : List PlayerState,
      (modifyFirstPlayer ps seat f).find? (fun q => q.seatIndex == x)
        = ps.find? (fun q => q.seatIndex == x) := by
  intro ps
  induction ps with
  | nil => rfl
  | cons p rest ih =>
    unfold modifyFirstPlayer
    by_cases hp : p.seatIndex = seat
    · rw [if_pos hp]
      rw [List.find?_cons_of_neg _ (by simp [hf, hp]; exact fun hc => hx hc.symm),
          List.find?_cons_of_neg _ (by simp [hp]; exact fun hc => hx hc.symm)]
    · rw [if_neg hp]
      by_cases hq : p.seatIndex = x
      · rw [List.find?_cons_of_pos _ (by simp [hq]),
            List.find?_cons_of_pos _ (by simp [hq])]
      · rw [List.find?_cons_of_neg _ (by simp [hq]),
            List.find?_cons_of_neg _ (by simp [hq])]
        exact ih

theorem players_foldl_log {α : Type} (g : GameState → α → String) :
    ∀ (l : List α) (s0 : GameState),
      (l.foldl (fun acc e => log acc (g acc e)) s0).players = s0.players := by
  intro l
  induction l with
  | nil => intro s0; rfl
  | cons e rest ih => intro s0; exact ih (log s0 (g s0 e))

theorem players_triggerDeckExhaustion (s : GameState) :
    (triggerDeckExhaustion s).players = s.players := by
  unfold triggerDeckExhaustion
  dsimp only
  split
  · exact players_foldl_log _ _ _
  · exact players_foldl_log _ _ _

theorem players_ensureDeck (sh : List CardId → List CardId) (s : GameState) :
    (ensureDeck sh s).2.players = s.players := by
  unfold ensureDeck
  dsimp only
  split
  · rfl
  split
  · rfl
  split <;> rfl

theorem players_drawCard (sh : List CardId → List CardId) (s : GameState) :
    (drawCard sh s).2.players = s.players := by
  unfold drawCard
  split
  case h_1 s1 heq =>
    have h := players_ensureDeck sh s
    rw [heq] at h
    exact h
  case h_2 s1 heq =>
    have h := players_ensureDeck sh s
    rw [heq] at h
    split
    · exact h
    · exact h

theorem find?_finishHuntDrawLoop (sh : List CardId → List CardId)
    (pseat x : Nat) (hx : x ≠ pseat) :
    ∀ (n drawn : Nat) (s : GameState),
      ((finishHuntDrawLoop sh s pseat n drawn).2).players.find? (fun q => q.seatIndex == x)
        = s.players.find? (fun q => q.seatIndex == x) := by
  intro n
  induction n with
  | zero => intro drawn s; rfl
  | succ n ih =>
    intro drawn s
    unfold finishHuntDrawLoop
    split
    case h_1 c s1 heq =>
      have h1 : s1.players = s.players := by
        have := players_drawCard sh s
        rw [heq] at this
        exact this
      rw [players_triggerDeckExhaustion, h1]
    case h_2 c s1 heq =>
      rw [ih]
      have h1 : s1.players = s.players := by
        have := players_drawCard sh s
        rw [heq] at this
        exact this
      unfold modifyPlayer
      dsimp only
      rw [find?_modifyFirst_other pseat x (fun q => { q with hand := q.hand ++ [c] })
        (fun q => rfl) hx, h1]

theorem find?_finishHunt_other (sh : List CardId → List CardId) (s : GameState)
    (pseat : Nat) (hcid : CardId) (db av : Nat) (x : Nat) (hx : x ≠ pseat) :
    (finishHunt sh s pseat hcid db av).players.find? (fun q => q.seatIndex == x)
      = s.players.find? (fun q => q.seatIndex == x) := by
  unfold finishHunt huntFinishPlace
  dsimp only
  split
  · split
    case h_1 s1 heq =>
      have h1 := find?_finishHuntDrawLoop sh pseat x hx (db - av) 0 s
      rw [heq] at h1
      exact h1
    case h_2 drawn s1 heq =>
      have h1 := find?_finishHuntDrawLoop sh pseat x hx (db - av) 0 s
      rw [heq] at h1
      dsimp only at h1 ⊢
      simp only [modifyPlayer]
      rw [find?_modifyFirst_other pseat x
        (fun q => { q with territory := q.territory ++ [hcid] }) (fun q => rfl) hx]
      exact h1
  · simp only [modifyPlayer]
    rw [find?_modifyFirst_other pseat x
      (fun q => { q with territory := q.territory ++ [hcid] }) (fun q => rfl) hx]
    rfl

theorem find?_huntResponseAdvance_other (sh : List CardId → List CardId)
    (s : GameState) (pr : PendingHuntResponse) (rseat : Nat) (averted : Bool)
    (x : Nat) (hx : x ≠ pr.huntPlayerSeat) :
    (huntResponseAdvance sh s pr rseat averted).players.find? (fun q => q.seatIndex == x)
      = s.players.find? (fun q => q.seatIndex == x) := by
  unfold huntResponseAdvance startDiscardPhaseOrFinish
  dsimp only
  split
  · rfl
  · split
    · rfl
    · exact find?_finishHunt_other sh s pr.huntPlayerSeat pr.huntCardId
        pr.drawsForHunter _ x hx

/-- C10: in a Hunt response that reveals a Healing card (optionally
with a Magi), the revealed cards always move from the responder's hand
into their territory — the statement carries no hypothesis comparing the
healing total with the Hunt value, so it covers failed averts — and a
revealed Magi is also appended to `territoryMagiAsHealing`. -/
theorem c10_huntResponse_reveal_always_enters_territory
    (sh : List CardId → List CardId) (s : GameState) (seat : Nat)
    (pr : PendingHuntResponse) (h : CardId) (magiId : Option CardId)
    (player : PlayerState)
    (hpend : s.pendingAction = some (.huntResponse pr))
    (hseat : pr.respondingSeat = seat)
    (hhunter : seat ≠ pr.huntPlayerSeat)
    (hfind : s.players.find? (fun q => q.seatIndex == seat) = some player)
    (hh : parseCardType h = .healing)
    (hmem : player.hand.contains h = true)
    (hmagi : ∀ m, magiId = some m →
      parseCardType m = .magi ∧ player.hand.contains m = true) :
    (handleHuntResponse sh s seat (some h) magiId).1 = none
      ∧ getPlayerBySeat (handleHuntResponse sh s seat (some h) magiId).2 seat
        = (match magiId with
           | none => { player with
                         hand := player.hand.erase h,
                         territory := player.territory ++ [h] }
           | some m => { player with
                           hand := (player.hand.erase h).erase m,
                           territory := (player.territory ++ [h]) ++ [m],
                           territoryMagiAsHealing :=
                             player.territoryMagiAsHealing ++ [m] }) := by
  have hgp : getPlayerBySeat s seat = player := by
    unfold getPlayerBySeat
    rw [hfind]
    rfl
  have c1 : ¬ (pr.respondingSeat ≠ seat) := by simp [hseat]
  have c2 : ¬ (parseCardType h ≠ CardType.healing) := by simp [hh]
  cases magiId with
  | none =>
    simp only [handleHuntResponse, hpend, c1, if_false, hgp, c2, hmem,
      Bool.not_true, if_true, ite_false, ite_true, Bool.false_eq_true]
    refine ⟨trivial, ?_⟩
    unfold getPlayerBySeat
    rw [find?_huntResponseAdvance_other sh _ pr seat _ seat hhunter]
    simp only [modifyPlayer]
    rw [find?_modifyFirst_self seat
      (fun q => { q with hand := q.hand.erase h, territory := q.territory ++ [h] })
      (fun q => rfl)]
    simp only [log]
    rw [hfind]
    rfl
  | some m =>
    obtain ⟨hm1, hm2⟩ := hmagi m rfl
    have c3 : decide (parseCardType m ≠ CardType.magi) = false := by simp [hm1]
    simp only [handleHuntResponse, hpend, c1, if_false, hgp, c2, hmem, hm2,
      Bool.not_true, if_true, ite_false, ite_true, c3, Bool.false_eq_true]
    refine ⟨trivial, ?_⟩
    unfold getPlayerBySeat
    rw [find?_huntResponseAdvance_other sh _ pr seat _ seat hhunter]
    simp only [modifyPlayer]
    rw [find?_modifyFirst_self seat
      (fun q => { q with hand := q.hand.erase m, territory := q.territory ++ [m],
                         territoryMagiAsHealing := q.territoryMagiAsHealing ++ [m] })
      (fun q => rfl)]
    rw [find?_modifyFirst_self seat
      (fun q => { q with hand := q.hand.erase h, territory := q.territory ++ [h] })
      (fun q => rfl)]
    simp only [log]
    rw [hfind]
    rfl

theorem pendingAction_foldl_log {α : Type} (g : GameState → α → String) :
    ∀ (l : List α) (s0 : GameState),
      (l.foldl (fun acc e => log acc (g acc e)) s0).pendingAction = s0.pendingAction := by
  intro l
  induction l with
  | nil => intro s0; rfl
  | cons e rest ih => intro s0; exact ih (log s0 (g s0 e))

theorem pendingAction_triggerDeckExhaustion (s : GameState) :
    (triggerDeckExhaustion s).pendingAction = s.pendingAction := by
  unfold triggerDeckExhaustion
  dsimp only
  split
  · exact pendingAction_foldl_log _ _ _
  · exact pendingAction_foldl_log _ _ _

theorem pendingAction_ensureDeck (sh : List CardId → List CardId) (s : GameState) :
    (ensureDeck sh s).2.pendingAction = s.pendingAction := by
  unfold ensureDeck
  dsimp only
  split
  · rfl
  split
  · rfl
  split <;> rfl

theorem pendingAction_drawCard (sh : List CardId → List CardId) (s : GameState) :
    (drawCard sh s).2.pendingAction = s.pendingAction := by
  unfold drawCard
  split
  case h_1 s1 heq =>
    have hp := pendingAction_ensureDeck sh s
    rw [heq] at hp
    exact hp
  case h_2 s1 heq =>
    have hp := pendingAction_ensureDeck sh s
    rw [heq] at hp
    split
    · exact hp
    · exact hp

theorem pendingAction_finishHuntDrawLoop (sh : List CardId → List CardId)
    (pseat : Nat) : ∀ (n drawn : Nat) (s : GameState),
      ((finishHuntDrawLoop sh s pseat n drawn).2).pendingAction = s.pendingAction := by
  intro n
  induction n with
  | zero => intro drawn s; rfl
  | succ n ih =>
    intro drawn s
    unfold finishHuntDrawLoop
    split
    case h_1 c s1 heq =>
      have hp := pendingAction_drawCard sh s
      rw [heq] at hp
      rw [pendingAction_triggerDeckExhaustion]
      exact hp
    case h_2 c s1 heq =>
      rw [ih]
      have hp := pendingAction_drawCard sh s
      rw [heq] at hp
      exact hp

theorem drawCard_nonempty (sh : List CardId → List CardId) (s : GameState)
    (h : s.deck ≠ []) :
    drawCard sh s = (s.deck.getLast?, { s with deck := s.deck.dropLast }) := by
  have hne : 0 < s.deck.length := List.length_pos.mpr h
  obtain ⟨a, ha⟩ := Option.isSome_iff_exists.mp (List.getLast?_isSome.mpr h)
  unfold drawCard ensureDeck popLast
  rw [if_pos hne]
  dsimp only
  rw [ha]

theorem burnCards_spec (sh : List CardId → List CardId) :
    ∀ (n : Nat) (s : GameState), n ≤ s.deck.length →
      (burnCards sh s n).1 = true
        ∧ (burnCards sh s n).2.players = s.players
        ∧ (burnCards sh s n).2.pendingAction = s.pendingAction := by
  intro n
  induction n with
  | zero => intro s _; exact ⟨rfl, rfl, rfl⟩
  | succ n ih =>
    intro s hn
    have hne : s.deck ≠ [] := by
      intro hc
      rw [hc] at hn
      exact absurd hn (by simp)
    have hpos : 0 < s.deck.length := List.length_pos.mpr hne
    obtain ⟨a, ha⟩ := Option.isSome_iff_exists.mp (List.getLast?_isSome.mpr hne)
    have hburn : burnCard sh s
        = (true, { s with deck := s.deck.dropLast, burned := s.burned ++ [a] }) := by
      unfold burnCard ensureDeck popLast
      rw [if_pos hpos]
      dsimp only
      rw [ha]
    have hlen : n ≤ s.deck.dropLast.length := by
      rw [List.length_dropLast]
      omega
    unfold burnCards
    rw [hburn]
    exact ih { s with deck := s.deck.dropLast, burned := s.burned ++ [a] } hlen

theorem finishHuntDrawLoop_spec (sh : List CardId → List CardId) (pseat : Nat) :
    ∀ (n drawn : Nat) (s : GameState) (hp : PlayerState),
      s.players.find? (fun q => q.seatIndex == pseat) = some hp →
      n ≤ s.deck.length →
      (finishHuntDrawLoop sh s pseat n drawn).1 = some (drawn + n)
        ∧ ∃ hp2 : PlayerState,
            ((finishHuntDrawLoop sh s pseat n drawn).2).players.find?
                (fun q => q.seatIndex == pseat) = some hp2
              ∧ hp2.hand.length = hp.hand.length + n
              ∧ hp2.territory = hp.territory := by
  intro n
  induction n with
  | zero =>
    intro drawn s hp hfind _
    exact ⟨rfl, hp, hfind, by simp, rfl⟩
  | succ n ih =>
    intro drawn s hp hfind hn
    have hne : s.deck ≠ [] := by
      intro hc
      rw [hc] at hn
      exact absurd hn (by simp)
    obtain ⟨a, ha⟩ := Option.isSome_iff_exists.mp (List.getLast?_isSome.mpr hne)
    have hdraw := drawCard_nonempty sh s hne
    rw [ha] at hdraw
    unfold finishHuntDrawLoop
    rw [hdraw]
    have hfind2 : (modifyPlayer { s with deck := s.deck.dropLast } pseat
        (fun q => { q with hand := q.hand ++ [a] })).players.find?
        (fun q => q.seatIndex == pseat) = some { hp with hand := hp.hand ++ [a] } := by
      simp only [modifyPlayer]
      rw [find?_modifyFirst_self pseat (fun q => { q with hand := q.hand ++ [a] })
        (fun q => rfl)]
      rw [show ({ s with deck := s.deck.dropLast } : GameState).players
        = s.players from rfl, hfind]
      rfl
    have hlen : n ≤ (modifyPlayer { s with deck := s.deck.dropLast } pseat
        (fun q => { q with hand := q.hand ++ [a] })).deck.length := by
      simp only [modifyPlayer]
      show n ≤ s.deck.dropLast.length
      rw [List.length_dropLast]
      omega
    obtain ⟨h1, hp2, h2, h3, h4⟩ := ih (drawn + 1) _ _ hfind2 hlen
    refine ⟨?_, hp2, h2, ?_, h4⟩
    · rw [h1]
      congr 1
      omega
    · rw [h3]
      simp
      omega

theorem pendingAction_finishHunt (sh : List CardId → List CardId) (s2 : GameState)
    (pseat : Nat) (hcid : CardId) (db av : Nat) :
    (finishHunt sh s2 pseat hcid db av).pendingAction = none
      ∨ (finishHunt sh s2 pseat hcid db av).pendingAction = s2.pendingAction := by
  unfold finishHunt huntFinishPlace
  dsimp only
  split
  · split
    case h_1 s1 heq =>
      right
      have hp := pendingAction_finishHuntDrawLoop sh pseat (db - av) 0 s2
      rw [heq] at hp
      exact hp
    case h_2 drawn s1 heq => left; rfl
  · left; rfl

/-- C8: Hunt arithmetic.  Whenever `handlePlayHunt` raises a
`huntResponse` pending action, its total value is the card value plus
the number of Hunts already in the owner's territory, and both the
per-opponent discard count and the hunter draw base are
`2 + (King's Commands in territory)`; and `finishHunt` (given enough
cards in the deck) grows the hunter's hand by exactly
`max 0 (drawsBase - averters)` (Nat subtraction) and appends the Hunt
card to the territory. -/
theorem c8_hunt_arithmetic (sh : List CardId → List CardId) (s : GameState)
    (seat : Nat) (c : CardId) (player : PlayerState)
    (hphase : s.turnPhase = .territoryAction)
    (hhunt : parseCardType c = .hunt)
    (hfind : s.players.find? (fun q => q.seatIndex == seat) = some player)
    (hmem : player.hand.contains c = true)
    (hdeck : 3 ≤ s.deck.length)
    (hpnone : s.pendingAction = none) :
    (∀ pr : PendingHuntResponse,
        (handlePlayHunt sh s seat c).2.pendingAction = some (.huntResponse pr) →
        pr.huntTotalValue = parseCardValue c + countTerritoryType player .hunt
          ∧ pr.discardsPerPlayer = 2 + countTerritoryType player .kingscommand
          ∧ pr.drawsForHunter = 2 + countTerritoryType player .kingscommand)
      ∧ (∀ (s2 : GameState) (pseat : Nat) (hcid : CardId) (db av : Nat)
            (hp : PlayerState),
          s2.players.find? (fun q => q.seatIndex == pseat) = some hp →
          db - av ≤ s2.deck.length →
          ∃ hp2 : PlayerState,
            (finishHunt sh s2 pseat hcid db av).players.find?
                (fun q => q.seatIndex == pseat) = some hp2
              ∧ hp2.hand.length = hp.hand.length + (db - av)
              ∧ hp2.territory = hp.territory ++ [hcid]) := by
  constructor
  · intro pr hpr
    have hgp : getPlayerBySeat s seat = player := by
      unfold getPlayerBySeat
      rw [hfind]
      rfl
    have c1 : ¬ (s.turnPhase ≠ TurnPhase.territoryAction) := by simp [hphase]
    have c2 : ¬ (parseCardType c ≠ CardType.hunt) := by simp [hhunt]
    obtain ⟨hb1, hb2, hb3⟩ := burnCards_spec sh 3 s hdeck
    rcases hB : burnCards sh s 3 with ⟨bres, s1⟩
    rw [hB] at hb1 hb2 hb3
    dsimp only at hb1 hb2 hb3
    subst hb1
    have hgp1 : getPlayerBySeat s1 seat = player := by
      unfold getPlayerBySeat
      rw [hb2, hfind]
      rfl
    simp only [handlePlayHunt, c1, if_false, c2, hgp, hmem, Bool.not_true,
      Bool.false_eq_true, if_true, ite_true, ite_false, hB, hgp1] at hpr
    rcases hO : getOpponentSeatsInOrder
        (modifyPlayer (log s1 (player.name ++ " plays " ++ cardDisplayName c ++ "."))
          seat (fun q => { q with hand := q.hand.erase c })) seat with _ | ⟨o, os⟩
    · rw [hO] at hpr
      dsimp only at hpr
      rcases pendingAction_finishHunt sh _ seat c (2 + countTerritoryType player .kingscommand) 0
          with hfin | hfin
      · rw [hpr] at hfin
        cases hfin
      · rw [hpr] at hfin
        rw [show (modifyPlayer (log s1 (player.name ++ " plays " ++ cardDisplayName c ++ "."))
          seat (fun q => { q with hand := q.hand.erase c })).pendingAction
          = s1.pendingAction from rfl] at hfin
        rw [hb3, hpnone] at hfin
        cases hfin
    · rw [hO] at hpr
      dsimp only at hpr
      have hinj := Option.some.inj hpr
      have hinj2 := PendingAction.huntResponse.inj hinj
      rw [← hinj2]
      exact ⟨rfl, rfl, rfl⟩
  · intro s2 pseat hcid db av hp hfind2 hdeck2
    unfold finishHunt huntFinishPlace
    dsimp only
    by_cases hdc : 0 < db - av
    · rw [if_pos hdc]
      obtain ⟨h1, hp2, h2, h3, h4⟩ :=
        finishHuntDrawLoop_spec sh pseat (db - av) 0 s2 hp hfind2 hdeck2
      rcases hL : finishHuntDrawLoop sh s2 pseat (db - av) 0 with ⟨res1, sL⟩
      rw [hL] at h1 h2
      dsimp only at h1 h2
      subst h1
      refine ⟨{ hp2 with territory := hp2.territory ++ [hcid] }, ?_, h3, by rw [h4]⟩
      simp only [modifyPlayer]
      rw [find?_modifyFirst_self pseat
        (fun q => { q with territory := q.territory ++ [hcid] }) (fun q => rfl)]
      rw [show (log sL ((getPlayerBySeat s2 pseat).name ++ " draws " ++ toString (0 + (db - av))
        ++ " cards from the Hunt.")).players = sL.players from rfl]
      rw [h2]
      rfl
    · rw [if_neg hdc]
      have h0 : db - av = 0 := by omega
      refine ⟨{ hp with territory := hp.territory ++ [hcid] }, ?_, by simp [h0], rfl⟩
      simp only [modifyPlayer]
      rw [find?_modifyFirst_self pseat
        (fun q => { q with territory := q.territory ++ [hcid] }) (fun q => rfl)]
      rw [show (log s2 ((getPlayerBySeat s2 pseat).name
        ++ " draws no cards (all opponents averted).")).players = s2.players from rfl]
      rw [hfind2]
      rfl

theorem filterAlive_modifyFirst_pres (seat : Nat) (f : PlayerState → PlayerState)
    (hf : ∀ q, (f q).eliminated = q.eliminated) :
    ∀ ps : List PlayerState,
      ((modifyFirstPlayer ps seat f).filter (fun q => !q.eliminated)).length
        = (ps.filter (fun q => !q.eliminated)).length := by
  intro ps
  induction ps with
  | nil => rfl
  | cons p rest ih =>
    unfold modifyFirstPlayer
    by_cases hp : p.seatIndex = seat
    · rw [if_pos hp]
      simp only [List.filter_cons, hf]
      cases p.eliminated <;> simp
    · rw [if_neg hp]
      simp only [List.filter_cons]
      cases p.eliminated <;> simp [ih]

theorem filterAlive_modifyFirst_elim (seat : Nat) :
    ∀ (ps : List PlayerState) (p : PlayerState),
      ps.find? (fun q => q.seatIndex == seat) = some p →
      p.eliminated = false →
      ((modifyFirstPlayer ps seat (fun q => { q with eliminated := true })).filter
          (fun q => !q.eliminated)).length + 1
        = (ps.filter (fun q => !q.eliminated)).length := by
  intro ps
  induction ps with
  | nil => intro p h _; cases h
  | cons a rest ih =>
    intro p hfind halive
    unfold modifyFirstPlayer
    by_cases hp : a.seatIndex = seat
    · rw [if_pos hp]
      have ha : a = p := by
        rw [List.find?_cons_of_pos _ (by simp [hp])] at hfind
        exact Option.some.inj hfind
      subst ha
      simp only [List.filter_cons, halive]
      simp
    · rw [if_neg hp]
      rw [List.find?_cons_of_neg _ (by simp [hp])] at hfind
      have hrec := ih p hfind halive
      simp only [List.filter_cons]
      cases a.eliminated <;> simp <;> omega

theorem players_checkLastStanding (s : GameState) :
    (checkLastStanding s).players = s.players := by
  unfold checkLastStanding
  split
  · rfl
  · split <;> rfl

theorem playerOrder_checkLastStanding (s : GameState) :
    (checkLastStanding s).playerOrder = s.playerOrder := by
  unfold checkLastStanding
  split
  · rfl
  · split <;> rfl

theorem discard_checkLastStanding (s : GameState) :
    (checkLastStanding s).discard = s.discard := by
  unfold checkLastStanding
  split
  · rfl
  · split <;> rfl

theorem eliminatePlayer_spec (s : GameState) (seat : Nat) (player : PlayerState)
    (hfind : s.players.find? (fun q => q.seatIndex == seat) = some player) :
    (getPlayerBySeat (eliminatePlayer s seat) seat).eliminated = true
      ∧ (getPlayerBySeat (eliminatePlayer s seat) seat).hand = []
      ∧ seat ∉ (eliminatePlayer s seat).playerOrder
      ∧ (eliminatePlayer s seat).discard = s.discard ++ player.hand
      ∧ (s.winner = none → player.eliminated = false →
          (s.players.filter (fun q => !q.eliminated)).length = 2 →
          (eliminatePlayer s seat).winner.isSome = true) := by
  have hgp : getPlayerBySeat s seat = player := by
    unfold getPlayerBySeat
    rw [hfind]
    rfl
  unfold eliminatePlayer
  simp only [hgp, modifyPlayer]
  have hfind4 :
      (modifyFirstPlayer (modifyFirstPlayer s.players seat
          (fun q => { q with eliminated := true })) seat
          (fun q => { q with hand := [] })).find? (fun q => q.seatIndex == seat)
        = some { player with eliminated := true, hand := [] } := by
    rw [find?_modifyFirst_self seat (fun q => { q with hand := [] }) (fun q => rfl)]
    rw [find?_modifyFirst_self seat (fun q => { q with eliminated := true }) (fun q => rfl)]
    rw [hfind]
    rfl
  refine ⟨?_, ?_, ?_, ?_, ?_⟩
  · unfold getPlayerBySeat
    rw [players_checkLastStanding]
    dsimp only
    rw [hfind4]
    rfl
  · unfold getPlayerBySeat
    rw [players_checkLastStanding]
    dsimp only
    rw [hfind4]
    rfl
  · rw [playerOrder_checkLastStanding]
    dsimp only
    simp [List.mem_filter]
  · rw [discard_checkLastStanding]
  · intro hw he hn
    have hcount :
        ((modifyFirstPlayer (modifyFirstPlayer s.players seat
            (fun q => { q with eliminated := true })) seat
            (fun q => { q with hand := [] })).filter (fun q => !q.eliminated)).length = 1 := by
      rw [filterAlive_modifyFirst_pres seat (fun q => { q with hand := [] })
        (fun q => rfl)]
      have := filterAlive_modifyFirst_elim seat s.players player hfind he
      omega
    obtain ⟨q, hq⟩ := List.length_eq_one.mp hcount
    unfold checkLastStanding
    dsimp only
    rw [hq, hw]
    simp

/-- C6: atonement.  The cost table is 1 for values up to 4, 2 up to 8,
3 above; if the player's territory Healing value covers the Stag value
no cost is paid and no player or zone changes; otherwise the cost moves
from `contributionsRemaining` to `contributionsMade`; and when the
tokens are insufficient the player is eliminated — flagged, seat removed
from `playerOrder`, hand discarded — and last-standing is re-checked
(eliminating one of two living players sets a winner). -/
theorem c6_applyAtonement_spec (s : GameState) (seat : Nat) (stag : CardId)
    (player : PlayerState)
    (hfind : s.players.find? (fun q => q.seatIndex == seat) = some player) :
    (stagAtonementCost (parseCardValue stag)
        = if parseCardValue stag ≤ 4 then 1
          else if parseCardValue stag ≤ 8 then 2 else 3)
      ∧ (parseCardValue stag ≤ getTerritoryHealingValue player →
          (applyAtonement s seat stag).players = s.players
            ∧ (applyAtonement s seat stag).winner = s.winner
            ∧ (applyAtonement s seat stag).discard = s.discard
            ∧ (applyAtonement s seat stag).playerOrder = s.playerOrder)
      ∧ (getTerritoryHealingValue player < parseCardValue stag →
          stagAtonementCost (parseCardValue stag) ≤ player.contributionsRemaining →
          getPlayerBySeat (applyAtonement s seat stag) seat
              = { player with
                    contributionsRemaining :=
                      player.contributionsRemaining
                        - stagAtonementCost (parseCardValue stag),
                    contributionsMade :=
                      player.contributionsMade
                        + stagAtonementCost (parseCardValue stag) }
            ∧ (applyAtonement s seat stag).winner = s.winner
            ∧ (applyAtonement s seat stag).discard = s.discard
            ∧ (applyAtonement s seat stag).playerOrder = s.playerOrder)
      ∧ (getTerritoryHealingValue player < parseCardValue stag →
          player.contributionsRemaining < stagAtonementCost (parseCardValue stag) →
          (getPlayerBySeat (applyAtonement s seat stag) seat).eliminated = true
            ∧ (getPlayerBySeat (applyAtonement s seat stag) seat).hand = []
            ∧ seat ∉ (applyAtonement s seat stag).playerOrder
            ∧ (applyAtonement s seat stag).discard = s.discard ++ player.hand
            ∧ (s.winner = none → player.eliminated = false →
                (s.players.filter (fun q => !q.eliminated)).length = 2 →
                (applyAtonement s seat stag).winner.isSome = true)) := by
  have hgp : getPlayerBySeat s seat = player := by
    unfold getPlayerBySeat
    rw [hfind]
    rfl
  refine ⟨rfl, ?_, ?_, ?_⟩
  · intro hcov
    unfold applyAtonement
    simp only [hgp]
    rw [if_pos hcov]
    exact ⟨rfl, rfl, rfl, rfl⟩
  · intro hlt hpay
    unfold applyAtonement
    simp only [hgp]
    rw [if_neg (by omega), if_pos hpay]
    refine ⟨?_, rfl, rfl, rfl⟩
    unfold getPlayerBySeat
    simp only [log, modifyPlayer]
    rw [find?_modifyFirst_self seat
      (fun q => { q with
        contributionsRemaining :=
          q.contributionsRemaining - stagAtonementCost (parseCardValue stag),
        contributionsMade :=
          q.contributionsMade + stagAtonementCost (parseCardValue stag) })
      (fun q => rfl)]
    rw [hfind]
    rfl
  · intro hlt hpoor
    unfold applyAtonement
    simp only [hgp]
    rw [if_neg (by omega), if_neg (by omega)]
    have hfindl : (log s ((player.name ++ " cannot atone for "
        ++ cardDisplayName stag) ++ " and is eliminated!")).players.find?
        (fun q => q.seatIndex == seat) = some player := hfind
    obtain ⟨e1, e2, e3, e4, e5⟩ := eliminatePlayer_spec _ seat player hfindl
    exact ⟨e1, e2, e3, e4, fun hw he hn => e5 hw he hn⟩

theorem dropLast_append_of_getLast? {l : List CardId} {a : CardId}
    (h : l.getLast? = some a) : l.dropLast ++ [a] = l := by
  have hne : l ≠ [] := by
    intro hc
    rw [hc] at h
    cases h
  have hg := List.getLast?_eq_getLast l hne
  rw [hg] at h
  obtain rfl : a = l.getLast hne := (Option.some.inj h).symm
  exact List.dropLast_append_getLast hne

theorem ensureDeck_reshuffle (sh : List CardId → List CardId) (s : GameState)
    (h1 : s.deck = []) (h2 : s.discard ≠ []) (a : CardId)
    (ha : (sh s.discard).getLast? = some a) :
    ensureDeck sh s = (!((sh s.discard).dropLast).isEmpty,
      { s with deck := (sh s.discard).dropLast, discard := [],
               burned := s.burned ++ [a],
               log := (s.log ++ ["Discard pile shuffled into deck."])
                 ++ ["Burned 1 card after reshuffle."] }) := by
  unfold ensureDeck popLast
  rw [if_neg (by simp [h1]), if_neg (by simp [h2])]
  dsimp only
  rw [ha]

/-- C7 (amended): `drawCard` succeeds exactly when the deck is
non-empty or the discard pile has at least 2 cards (a lone discard card
is consumed by the burn-after-reshuffle, so the draw then fails); a draw
from a non-empty deck pops its top; and when the deck is empty and the
discard pile is not, the discard pile is shuffled into the deck and
emptied, and exactly one card is burned before the draw is taken — the
drawn card, the new deck and the burned card together are a permutation
of the old discard pile. -/
theorem c7_drawCard_spec (sh : List CardId → List CardId)
    (hsh : ∀ l : List CardId, (sh l).Perm l) (s : GameState) :
    ((drawCard sh s).1.isSome = true ↔ (s.deck ≠ [] ∨ 2 ≤ s.discard.length))
      ∧ (s.deck ≠ [] →
          drawCard sh s = (s.deck.getLast?, { s with deck := s.deck.dropLast }))
      ∧ (s.deck = [] → s.discard ≠ [] →
          ∃ b : CardId,
            (drawCard sh s).2.burned = s.burned ++ [b]
              ∧ (drawCard sh s).2.discard = []
              ∧ (((drawCard sh s).1.toList ++ (drawCard sh s).2.deck) ++ [b]).Perm
                  s.discard) := by
  by_cases hd : s.deck = []
  · by_cases hdis : s.discard = []
    · have hdraw : drawCard sh s = (none, s) := by
        unfold drawCard ensureDeck
        rw [if_neg (by simp [hd]), if_pos (by simp [hdis])]
      refine ⟨?_, fun hc => absurd hd hc, fun _ hc => absurd hdis hc⟩
      rw [hdraw]
      simp [hd, hdis]
    · have hlen : (sh s.discard).length = s.discard.length := (hsh s.discard).length_eq
      have hshne : sh s.discard ≠ [] := by
        intro hc
        have := hlen
        rw [hc] at this
        exact hdis (List.length_eq_zero.mp this.symm)
      obtain ⟨a, ha⟩ := Option.isSome_iff_exists.mp (List.getLast?_isSome.mpr hshne)
      have hens := ensureDeck_reshuffle sh s hd hdis a ha
      have hsh1 : (sh s.discard).dropLast ++ [a] = sh s.discard :=
        dropLast_append_of_getLast? ha
      by_cases hrest : (sh s.discard).dropLast = []
      · have hone : s.discard.length = 1 := by
          have h2 : (sh s.discard).dropLast.length = 0 := by
            rw [hrest]
            rfl
          have h3 := List.length_dropLast (sh s.discard)
          have h4 := List.length_pos.mpr hshne
          omega
        have hdraw : drawCard sh s = (none,
            { s with deck := (sh s.discard).dropLast, discard := [],
                     burned := s.burned ++ [a],
                     log := (s.log ++ ["Discard pile shuffled into deck."])
                       ++ ["Burned 1 card after reshuffle."] }) := by
          unfold drawCard
          rw [hens, hrest]
          rfl
        refine ⟨?_, fun hc => absurd hd hc, fun _ _ => ⟨a, ?_, ?_, ?_⟩⟩
        · rw [hdraw]
          simp [hd, hone]
        · rw [hdraw]
        · rw [hdraw]
        · rw [hdraw]
          dsimp only [Option.toList]
          rw [hrest]
          have : sh s.discard = [a] := by
            rw [← hsh1, hrest]
            rfl
          have hperm := hsh s.discard
          rw [this] at hperm
          simpa using hperm
      · obtain ⟨c2, hc2⟩ :=
          Option.isSome_iff_exists.mp (List.getLast?_isSome.mpr hrest)
        have hsh2 : ((sh s.discard).dropLast).dropLast ++ [c2] = (sh s.discard).dropLast :=
          dropLast_append_of_getLast? hc2
        have htwo : 2 ≤ s.discard.length := by
          have h2 := List.length_dropLast (sh s.discard)
          have h3 : 0 < (sh s.discard).dropLast.length := List.length_pos.mpr hrest
          omega
        have hbt : (!((sh s.discard).dropLast).isEmpty) = true := by
          simp [hrest]
        have hdraw : drawCard sh s = (some c2,
            { s with deck := ((sh s.discard).dropLast).dropLast, discard := [],
                     burned := s.burned ++ [a],
                     log := (s.log ++ ["Discard pile shuffled into deck."])
                       ++ ["Burned 1 card after reshuffle."] }) := by
          unfold drawCard
          rw [hens, hbt]
          dsimp only
          unfold popLast
          rw [hc2]
        refine ⟨?_, fun hc => absurd hd hc, fun _ _ => ⟨a, ?_, ?_, ?_⟩⟩
        · rw [hdraw]
          simp [htwo]
        · rw [hdraw]
        · rw [hdraw]
        · rw [hdraw]
          dsimp only [Option.toList]
          have hstep : (c2 :: ((sh s.discard).dropLast).dropLast) ++ [a]
              = ([c2] ++ ((sh s.discard).dropLast).dropLast) ++ [a] := rfl
          have hp1 : (c2 :: ((sh s.discard).dropLast).dropLast).Perm
              (((sh s.discard).dropLast).dropLast ++ [c2]) :=
            (List.perm_append_singleton c2 _).symm
          have hp2 := hp1.append_right [a]
          rw [hsh2, hsh1] at hp2
          exact hp2.trans (hsh s.discard)
  · have hdraw := drawCard_nonempty sh s hd
    refine ⟨?_, fun _ => hdraw, fun hc => absurd hc hd⟩
    rw [hdraw]
    simp [hd, List.getLast?_isSome]

theorem titheSkipLoop_fst (sh : List CardId → List CardId) (p : PendingTitheDiscard) :
    ∀ (l : List Nat) (s : GameState), (titheSkipLoop sh s p l).1 = none := by
  intro l
  induction l with
  | nil =>
    intro s
    unfold titheSkipLoop
    dsimp only
    split <;> rfl
  | cons seatx rest ih =>
    intro s
    unfold titheSkipLoop
    dsimp only
    split
    · exact ih s
    · split
      · split
        · rfl
        · exact ih _
      · rfl

theorem handleTitheSkipEliminated_fst (sh : List CardId → List CardId)
    (s : GameState) (p : PendingTitheDiscard) :
    (handleTitheSkipEliminated sh s p).1 = none :=
  titheSkipLoop_fst sh p p.remainingDiscardSeats s

theorem handleTitheAdvance_fst (sh : List CardId → List CardId) (s : GameState) :
    (handleTitheAdvance sh s).1 = none := by
  unfold handleTitheAdvance
  split
  · exact handleTitheSkipEliminated_fst sh s _
  · rfl

theorem titheAdvanceAfterDiscard_fst (sh : List CardId → List CardId)
    (s : GameState) (p : PendingTitheDiscard) :
    (titheAdvanceAfterDiscard sh s p).1 = none := by
  unfold titheAdvanceAfterDiscard
  dsimp only
  split
  · split
    · exact handleTitheSkipEliminated_fst sh _ _
    · split
      · split
        · rfl
        · exact handleTitheAdvance_fst sh _
      · rfl
  · split
    · rfl
    · split <;> rfl

theorem handleDrawCard_reject (sh : List CardId → List CardId) (s : GameState)
    (seat : Nat) (err : String) (s2 : GameState)
    (h : handleDrawCard sh s seat = (some err, s2)) : s2 = s := by
  unfold handleDrawCard at h
  repeat' (first | split at h | dsimp only at h)
  all_goals injection h with h1 h2
  all_goals first | exact h2.symm | cases h1

theorem handlePlayKingsCommand_reject (s : GameState) (seat : Nat) (c : CardId)
    (err : String) (s2 : GameState)
    (h : handlePlayKingsCommand s seat c = (some err, s2)) : s2 = s := by
  unfold handlePlayKingsCommand at h
  repeat' (first | split at h | dsimp only at h)
  all_goals injection h with h1 h2
  all_goals first | exact h2.symm | cases h1

theorem handleKingCommandResponse_reject (s : GameState) (seat : Nat)
    (stagId : Option CardId) (err : String) (s2 : GameState)
    (h : handleKingCommandResponse s seat stagId = (some err, s2)) : s2 = s := by
  unfold handleKingCommandResponse at h
  repeat' (first | split at h | dsimp only at h)
  all_goals injection h with h1 h2
  all_goals first | exact h2.symm | cases h1

theorem handleKingCommandCollect_reject (s : GameState) (seat : Nat)
    (stagIds : List CardId) (err : String) (s2 : GameState)
    (h : handleKingCommandCollect s seat stagIds = (some err, s2)) : s2 = s := by
  unfold handleKingCommandCollect at h
  repeat' (first | split at h | dsimp only at h)
  all_goals injection h with h1 h2
  all_goals first | exact h2.symm | cases h1

theorem handlePlayHunt_reject (sh : List CardId → List CardId) (s : GameState)
    (seat : Nat) (c : CardId) (err : String) (s2 : GameState)
    (h : handlePlayHunt sh s seat c = (some err, s2)) : s2 = s := by
  unfold handlePlayHunt at h
  repeat' (first | split at h | dsimp only at h)
  all_goals injection h with h1 h2
  all_goals first | exact h2.symm | cases h1

theorem handleHuntResponse_reject (sh : List CardId → List CardId) (s : GameState)
    (seat : Nat) (healingId magiId : Option CardId) (err : String) (s2 : GameState)
    (h : handleHuntResponse sh s seat healingId magiId = (some err, s2)) : s2 = s := by
  unfold handleHuntResponse at h
  repeat' (first | split at h | dsimp only at h)
  all_goals injection h with h1 h2
  all_goals first | exact h2.symm | cases h1

theorem handleHuntDiscard_reject (sh : List CardId → List CardId) (s : GameState)
    (seat : Nat) (cardIds : List CardId) (err : String) (s2 : GameState)
    (h : handleHuntDiscard sh s seat cardIds = (some err, s2)) : s2 = s := by
  unfold handleHuntDiscard at h
  repeat' (first | split at h | dsimp only at h)
  all_goals injection h with h1 h2
  all_goals first | exact h2.symm | cases h1

theorem handlePlayTithe_reject (sh : List CardId → List CardId) (s : GameState)
    (seat : Nat) (c : CardId) (err : String) (s2 : GameState)
    (h : handlePlayTithe sh s seat c = (some err, s2)) : s2 = s := by
  unfold handlePlayTithe at h
  repeat' (first | split at h | dsimp only at h)
  all_goals injection h with h1 h2
  all_goals first | exact h2.symm | cases h1

theorem handleTitheContribute_reject (sh : List CardId → List CardId) (s : GameState)
    (seat : Nat) (contribute : Bool) (err : String) (s2 : GameState)
    (h : handleTitheContribute sh s seat contribute = (some err, s2)) : s2 = s := by
  unfold handleTitheContribute at h
  repeat' (first | split at h | dsimp only at h)
  all_goals injection h with h1 h2
  all_goals first | exact h2.symm | cases h1

theorem handleTitheDiscard_reject (sh : List CardId → List CardId) (s : GameState)
    (seat : Nat) (cardIds : List CardId) (err : String) (s2 : GameState)
    (h : handleTitheDiscard sh s seat cardIds = (some err, s2)) : s2 = s := by
  unfold handleTitheDiscard at h
  repeat' (first | split at h | dsimp only at h)
  all_goals
    first
      | (injection h with h1 h2
         first | exact h2.symm | cases h1)
      | (have h1 := congrArg Prod.fst h
         simp only [titheAdvanceAfterDiscard_fst, handleTitheSkipEliminated_fst,
           handleTitheAdvance_fst] at h1
         cases h1)

/-- C5: no mutation on rejection.  For every embedded action handler and
every input, a rejected call (one returning a `some` error string)
returns the state unchanged — no zone, hand, counter, pending action,
phase or log entry differs. -/
theorem c5_no_mutation_on_rejection :
    (∀ sh s seat err s2, handleDrawCard sh s seat = (some err, s2) → s2 = s)
      ∧ (∀ sh s seat c err s2, handlePlayHunt sh s seat c = (some err, s2) → s2 = s)
      ∧ (∀ sh s seat healingId magiId err s2,
          handleHuntResponse sh s seat healingId magiId = (some err, s2) → s2 = s)
      ∧ (∀ sh s seat cardIds err s2,
          handleHuntDiscard sh s seat cardIds = (some err, s2) → s2 = s)
      ∧ (∀ sh s seat c err s2, handlePlayTithe sh s seat c = (some err, s2) → s2 = s)
      ∧ (∀ sh s seat cardIds err s2,
          handleTitheDiscard sh s seat cardIds = (some err, s2) → s2 = s)
      ∧ (∀ sh s seat contribute err s2,
          handleTitheContribute sh s seat contribute = (some err, s2) → s2 = s)
      ∧ (∀ s seat c err s2, handlePlayKingsCommand s seat c = (some err, s2) → s2 = s)
      ∧ (∀ s seat stagId err s2,
          handleKingCommandResponse s seat stagId = (some err, s2) → s2 = s)
      ∧ (∀ s seat stagIds err s2,
          handleKingCommandCollect s seat stagIds = (some err, s2) → s2 = s) :=
  ⟨handleDrawCard_reject, handlePlayHunt_reject, handleHuntResponse_reject,
   handleHuntDiscard_reject, handlePlayTithe_reject, handleTitheDiscard_reject,
   handleTitheContribute_reject, handlePlayKingsCommand_reject,
   handleKingCommandResponse_reject, handleKingCommandCollect_reject⟩

/-- C5 witness: a `titheDiscard` action sent while no Tithe discard is
pending is rejected and leaves the concrete state `sC7` untouched. -/
theorem c5_no_mutation_on_rejection_witness :
    (handleTitheDiscard shId sC7 0 []).2 = sC7 :=
  c5_no_mutation_on_rejection.2.2.2.2.2.1 shId sC7 0 []
    "No pending tithe discard" sC7 rfl

/-- C6 witness: in `sC4`, seat 1 (0 tokens, no Healing) discarding
Stag 12 is eliminated by the atonement and the last-standing re-check
sets a winner. -/
theorem c6_applyAtonement_spec_witness :
    ((applyAtonement sC4 1 ⟨.stag, 12⟩).winner).isSome = true := by
  have h := c6_applyAtonement_spec sC4 1 ⟨.stag, 12⟩ p1C4 rfl
  exact (h.2.2.2 (by decide) (by decide)).2.2.2.2 rfl rfl (by decide)

/-- C7 witness: with an empty deck and a two-card discard pile the draw
succeeds (the identity function is a permutation, instantiating the
shuffle hypothesis). -/
theorem c7_drawCard_spec_witness : (drawCard shId sC7b).1.isSome = true :=
  (c7_drawCard_spec shId (fun l => List.Perm.refl l) sC7b).1.mpr
    (Or.inr (by decide))

/-- C8 witness: Hunt 5 played with 2 territory Hunts and 1 King's
Command yields total value 7 and discard/draw base 3, matching the
pending action the handler actually raises on `sC8`. -/
theorem c8_hunt_arithmetic_witness :
    (PendingHuntResponse.huntTotalValue ⟨0, ⟨.hunt, 5⟩, 7, 1, [], 3, 3, 0, []⟩)
        = parseCardValue ⟨.hunt, 5⟩ + countTerritoryType p0C8 .hunt
      ∧ (PendingHuntResponse.discardsPerPlayer ⟨0, ⟨.hunt, 5⟩, 7, 1, [], 3, 3, 0, []⟩)
        = 2 + countTerritoryType p0C8 .kingscommand := by
  have h := (c8_hunt_arithmetic shId sC8 0 ⟨.hunt, 5⟩ p0C8 rfl rfl rfl rfl
      (by decide) rfl).1
    ⟨0, ⟨.hunt, 5⟩, 7, 1, [], 3, 3, 0, []⟩ (by decide)
  exact ⟨h.1, h.2.1⟩

/-- C9 witness: on `sC9` (cap already reached) a further contribute
request ends the resolution without starting a cycle. -/
theorem c9_titheContribute_cap_witness :
    (handleTitheContribute shId sC9 0 true).2.pendingAction = none :=
  (c9_titheContribute_cap shId sC9 0 ⟨0, ⟨.tithe, 1⟩, 2⟩ true rfl rfl
    (by decide)).2.1

/-- C10 witness: on `sC10` the revealed Healing 1 fails to avert the
value-12 Hunt, yet it still moves from seat 1's hand into their
territory. -/
theorem c10_huntResponse_reveal_always_enters_territory_witness :
    (handleHuntResponse shId sC10 1 (some ⟨.healing, 1⟩) none).1 = none
      ∧ getPlayerBySeat
          (handleHuntResponse shId sC10 1 (some ⟨.healing, 1⟩) none).2 1
        = { p1C10 with
              hand := p1C10.hand.erase ⟨.healing, 1⟩,
              territory := p1C10.territory ++ [⟨.healing, 1⟩] } :=
  c10_huntResponse_reveal_always_enters_territory shId sC10 1 prC10
    ⟨.healing, 1⟩ none p1C10 rfl rfl (by decide) rfl rfl rfl
    (fun m hm => nomatch hm)

end NoMoreTarot
